import Mathlib

/-!
# terraform-provider-ncloud: the `mysql_products` data source and the server SDK configuration

A shallow embedding of

* `internal/service/mysql/mysql_products_data_source.go`
  (`Configure`, `Read`, `flattenMysqlProduct`, the two `refreshFromOutput` methods,
  `attrTypes`), and
* `vendor/github.com/NaverCloudPlatform/ncloud-sdk-go-v2/services/server/configuration.go`
  (`NewConfiguration`).

Go pointers are `Option`, a run-time panic is the error of `Except Panic`, side effects
(diagnostics, the request sent, the file write, the state) are fields of the value a
function returns.
-/

namespace Ncloud

/-! ## Go run-time values -/

/-- Go pointer `*T`: `none` is the nil pointer. -/
abbrev Ptr (α : Type) : Type := Option α

/-- Run-time panics of the embedded code. -/
inductive Panic where
  | nilDereference
  deriving DecidableEq, Repr

/-- Dereference `*p`: panics on the nil pointer. -/
def Ptr.deref {α : Type} (p : Ptr α) : Except Panic α :=
  match p with
  | none => .error .nilDereference
  | some v => .ok v

/-- Go slice value: the nil slice, or an allocated (possibly empty) sequence. -/
inductive Slice (α : Type) where
  | nil
  | elems (xs : List α)
  deriving DecidableEq, Repr

namespace Slice

/-- Elements visited by `for _, v := range s`. -/
def toList {α : Type} : Slice α → List α
  | .nil => []
  | .elems xs => xs

/-- Go `len(s)`. -/
def len {α : Type} (s : Slice α) : Nat := s.toList.length

/-- Go `append(s, x)`: the result is never the nil slice. -/
def append {α : Type} (s : Slice α) (x : α) : Slice α :=
  .elems (s.toList ++ [x])

/-- Go `s == nil`. -/
def isNil {α : Type} : Slice α → Bool
  | .nil => true
  | .elems _ => false

end Slice

/-! ## terraform-plugin-framework values (`types.String`, `types.Int64`) -/

/-- Framework `types.String`: null, unknown, or a known string. -/
inductive TfString where
  | null
  | unknown
  | value (s : String)
  deriving DecidableEq, Repr

/-- Framework `types.Int64`: null, unknown, or a known 64-bit integer. -/
inductive TfInt64 where
  | null
  | unknown
  | value (n : Int)
  deriving DecidableEq, Repr

/-- Zero value of `types.String` (state `ValueStateNull`). -/
instance : Inhabited TfString := ⟨.null⟩

/-- Zero value of `types.Int64` (state `ValueStateNull`). -/
instance : Inhabited TfInt64 := ⟨.null⟩

/-- Framework `types.StringPointerValue`: nil gives null, otherwise the known value. -/
def StringPointerValue (p : Ptr String) : TfString :=
  match p with
  | none => .null
  | some s => .value s

/-- Framework `types.Int64PointerValue`: nil gives null, otherwise the known value. -/
def Int64PointerValue (p : Ptr Int) : TfInt64 :=
  match p with
  | none => .null
  | some n => .value n

/-- Framework `types.Int64Value`: always a known value. -/
def Int64Value (n : Int) : TfInt64 := .value n

/-- Framework `types.StringValue`: always a known value. -/
def StringValue (s : String) : TfString := .value s

namespace TfString

/-- Method `IsNull`. -/
def IsNull : TfString → Bool
  | .null => true
  | _ => false

/-- Method `IsUnknown`. -/
def IsUnknown : TfString → Bool
  | .unknown => true
  | _ => false

/-- Method `ValueString`: the known string, `""` for null and unknown. -/
def ValueString : TfString → String
  | .value s => s
  | _ => ""

/-- Method `ValueStringPointer`: nil for null, otherwise a pointer to the stored string
(which is `""` for unknown). -/
def ValueStringPointer : TfString → Ptr String
  | .null => none
  | .unknown => some ""
  | .value s => some s

end TfString

/-! ## Vendor SDK records (`vmysql`) -/

/-- Modelled from the spec: the declaration of `vmysql.CommonCode` is in the vendored SDK
package `vmysql`; vendor fields are optional pointers, and `refreshFromOutput` passes `Code`
to `StringPointerValue`, so it is a `*string`. -/
structure CommonCode where
  Code : Ptr String
  CodeName : Ptr String
  deriving DecidableEq, Repr

/-- Modelled from the spec: the declaration of `vmysql.Product` is in the vendored SDK
package `vmysql`; vendor fields are optional pointers. The pointee of each field
is the one the accesses in `refreshFromOutput` require: a string where the field is passed to
`StringPointerValue`, an integer where it is dereferenced and converted (`*output.CpuCount`)
or passed to `Int64PointerValue`, and a `CommonCode` where `.Code` is selected. -/
structure Product where
  ProductCode : Ptr String
  ProductName : Ptr String
  ProductType : Ptr CommonCode
  ProductDescription : Ptr String
  InfraResourceType : Ptr CommonCode
  CpuCount : Ptr Int
  MemorySize : Ptr Int
  DiskType : Ptr CommonCode
  deriving DecidableEq, Repr

/-! ## The data source's models -/

/-- Go struct `mysqlProductModel`. -/
structure mysqlProductModel where
  ProductCode : TfString
  ProductName : TfString
  ProductType : TfString
  ProductDescription : TfString
  InfraResourceType : TfString
  CpuCount : TfInt64
  MemorySize : TfInt64
  DiskType : TfString
  deriving DecidableEq, Repr

/-- Zero value `var output mysqlProductModel`: every field null. -/
instance : Inhabited mysqlProductModel :=
  ⟨⟨.null, .null, .null, .null, .null, .null, .null, .null⟩⟩

/-- Method `(m *mysqlProductModel) refreshFromOutput(output *vmysql.Product)`, statement by
statement. `output.X` dereferences `output`, `output.ProductType.Code` dereferences
`output.ProductType`, and `*output.CpuCount` dereferences the count. -/
def mysqlProductModel.refreshFromOutput (m : mysqlProductModel) (output : Ptr Product) :
    Except Panic mysqlProductModel := do
  let o ← output.deref
  let m := { m with ProductCode := StringPointerValue o.ProductCode }
  let m := { m with ProductName := StringPointerValue o.ProductName }
  let productType ← o.ProductType.deref
  let m := { m with ProductType := StringPointerValue productType.Code }
  let m := { m with ProductDescription := StringPointerValue o.ProductDescription }
  let infraResourceType ← o.InfraResourceType.deref
  let m := { m with InfraResourceType := StringPointerValue infraResourceType.Code }
  let cpuCount ← o.CpuCount.deref
  let m := { m with CpuCount := Int64Value cpuCount }
  let m := { m with MemorySize := Int64PointerValue o.MemorySize }
  let diskType ← o.DiskType.deref
  let m := { m with DiskType := StringPointerValue diskType.Code }
  return m

/-- Body of the loop of `flattenMysqlProduct`: a fresh model is refreshed from `v` and a
pointer to it is appended to `outputs`. -/
def flattenStep (outputs : Slice (Ptr mysqlProductModel)) (v : Ptr Product) :
    Except Panic (Slice (Ptr mysqlProductModel)) := do
  let output ← (default : mysqlProductModel).refreshFromOutput v
  pure (outputs.append (some output))

/-- Function `flattenMysqlProduct`: `outputs` starts as the nil slice and the loop body runs
once per element of `list`, in order. -/
def flattenMysqlProduct (list : Slice (Ptr Product)) :
    Except Panic (Slice (Ptr mysqlProductModel)) :=
  list.toList.foldlM flattenStep Slice.nil

/-! ## Diagnostics (`diag.Diagnostics`) -/

/-- Framework `diag.Severity`. -/
inductive Severity where
  | error
  | warning
  deriving DecidableEq, Repr

/-- Framework diagnostic: severity, summary and detail (what `Equal` compares). -/
structure Diagnostic where
  severity : Severity
  summary : String
  detail : String
  deriving DecidableEq, Repr

/-- Framework `diag.Diagnostics`: a sequence of diagnostics. -/
abbrev Diagnostics : Type := List Diagnostic

namespace Diagnostics

/-- Method `Contains`: some stored diagnostic is `Equal` to `d`. -/
def Contains (diags : Diagnostics) (d : Diagnostic) : Bool :=
  diags.any (fun x => decide (x = d))

/-- Method `Append`: each incoming diagnostic is added at the end unless an equal one is
already stored. -/
def Append (diags : Diagnostics) (incoming : List Diagnostic) : Diagnostics :=
  incoming.foldl (fun acc d => if acc.Contains d then acc else acc ++ [d]) diags

/-- Method `AddError`: `Append` of one error diagnostic. -/
def AddError (diags : Diagnostics) (summary detail : String) : Diagnostics :=
  diags.Append [⟨.error, summary, detail⟩]

/-- Method `HasError`: some stored diagnostic has severity error. -/
def HasError (diags : Diagnostics) : Bool :=
  diags.any (fun x => decide (x.severity = .error))

/-- Number of stored error diagnostics with the given summary. -/
def errorCount (diags : Diagnostics) (summary : String) : Nat :=
  (diags.filter (fun x => decide (x.severity = .error ∧ x.summary = summary))).length

end Diagnostics

/-! ## `Configure` -/

/-- Provider configuration `conn.ProviderConfig`: the region code read by `Read`; the
remaining fields (the API clients) are carried as an identifying number. -/
structure ProviderConfig where
  RegionCode : String
  Client : Nat
  deriving DecidableEq, Repr

/-- Interface value `req.ProviderData` (`any`): the nil interface, a `*conn.ProviderConfig`
(possibly a nil pointer of that type), or a value of another dynamic type, of which
`%T` prints `typeName`. -/
inductive ProviderData where
  | nil
  | providerConfig (p : Ptr ProviderConfig)
  | other (typeName : String)
  deriving DecidableEq, Repr

/-- Receiver `mysqlProductsDataSource`. -/
structure mysqlProductsDataSource where
  config : Ptr ProviderConfig
  deriving DecidableEq, Repr

/-- Method `Configure`: returns the receiver and the response diagnostics after the call. -/
def mysqlProductsDataSource.Configure (m : mysqlProductsDataSource) (providerData : ProviderData)
    (respDiagnostics : Diagnostics) : mysqlProductsDataSource × Diagnostics :=
  match providerData with
  | .nil => (m, respDiagnostics)
  | .providerConfig config => ({ m with config := config }, respDiagnostics)
  | .other typeName =>
    (m, respDiagnostics.AddError "Unexpected Data Source Configure Type"
      ("Expected *ProviderConfig, got: " ++ typeName ++
        ". Please report this issue to the provider developers."))

/-! ## `server.NewConfiguration` -/

/-- SDK `ncloud.APIKey`. -/
structure APIKey where
  AccessKey : String
  SecretKey : String
  deriving DecidableEq, Repr

/-- SDK `ncloud.Configuration`, the fields `NewConfiguration` sets; `DefaultHeader` is a
`map[string]string`, kept as its list of entries. -/
structure Configuration where
  BasePath : String
  DefaultHeader : List (String × String)
  UserAgent : String
  APIKey : Ptr APIKey
  deriving DecidableEq, Repr

/-- Go `os.Getenv` of one variable: `""` when the variable is unset. -/
def Getenv (setting : Option String) : String :=
  match setting with
  | none => ""
  | some v => v

/-- Function `NewConfiguration`; `NCLOUD_API_GW` is the state of that environment variable
(`none` when it is unset). -/
def NewConfiguration (NCLOUD_API_GW : Option String) (apiKey : Ptr APIKey) : Configuration :=
  let cfg : Configuration :=
    { BasePath := "https://ncloud.apigw.ntruss.com/server/v2"
      DefaultHeader := []
      UserAgent := "server/1.0.0/go"
      APIKey := apiKey }
  if Getenv NCLOUD_API_GW ≠ "" then
    { cfg with BasePath := Getenv NCLOUD_API_GW ++ "/server/v2" }
  else
    cfg

/-! ## Attribute types, objects and lists of the framework -/

/-- Framework `attr.Type`, the two primitive types the data source uses. -/
inductive AttrType where
  | StringType
  | Int64Type
  deriving DecidableEq, Repr

/-- Framework `attr.Value` of a primitive type. -/
inductive AttrValue where
  | string (v : TfString)
  | int64 (v : TfInt64)
  deriving DecidableEq, Repr

/-- Method `Type` of a primitive value. -/
def AttrValue.Type : AttrValue → AttrType
  | .string _ => .StringType
  | .int64 _ => .Int64Type

/-- Framework `types.Object` value: null, unknown, or known with its attribute map
(`map[string]attr.Value`, kept as the list of its entries). -/
inductive TfObject where
  | null
  | unknown
  | value (attributes : List (String × AttrValue))
  deriving DecidableEq, Repr

/-- Framework `types.List` value whose elements are objects. -/
inductive TfList where
  | null
  | unknown
  | value (elements : List TfObject)
  deriving DecidableEq, Repr

namespace TfList

/-- Method `Elements`: the stored elements, none for null and unknown. -/
def Elements : TfList → List TfObject
  | .value es => es
  | _ => []

/-- Method `IsNull`. -/
def IsNull : TfList → Bool
  | .null => true
  | _ => false

/-- Method `IsUnknown`. -/
def IsUnknown : TfList → Bool
  | .unknown => true
  | _ => false

/-- Known list: neither null nor unknown. -/
def isKnown : TfList → Bool
  | .value _ => true
  | _ => false

end TfList

/-- Method `(m mysqlProductModel) attrTypes()`: the map literal, entry by entry. -/
def mysqlProductModel.attrTypes (_m : mysqlProductModel) : List (String × AttrType) :=
  [ ("product_code", .StringType),
    ("product_name", .StringType),
    ("product_type", .StringType),
    ("infra_resource_type", .StringType),
    ("cpu_count", .Int64Type),
    ("memory_size", .Int64Type),
    ("disk_type", .StringType),
    ("product_description", .StringType) ]

/-- Fields of `mysqlProductModel` as reflection sees them: the `tfsdk` tag of each field
with the field's value, in declaration order. -/
def mysqlProductModel.tfsdkFields (m : mysqlProductModel) : List (String × AttrValue) :=
  [ ("product_code", .string m.ProductCode),
    ("product_name", .string m.ProductName),
    ("product_type", .string m.ProductType),
    ("product_description", .string m.ProductDescription),
    ("infra_resource_type", .string m.InfraResourceType),
    ("cpu_count", .int64 m.CpuCount),
    ("memory_size", .int64 m.MemorySize),
    ("disk_type", .string m.DiskType) ]

/-- Declared type of each `tfsdk`-tagged field of `mysqlProductModel` (`types.String` or
`types.Int64`), in declaration order. -/
def mysqlProductModel.tfsdkTags : List (String × AttrType) :=
  [ ("product_code", .StringType),
    ("product_name", .StringType),
    ("product_type", .StringType),
    ("product_description", .StringType),
    ("infra_resource_type", .StringType),
    ("cpu_count", .Int64Type),
    ("memory_size", .Int64Type),
    ("disk_type", .StringType) ]

/-- Nested attributes of `product_list` in `Schema`: `schema.StringAttribute` is of type
string, `schema.Int64Attribute` of type 64-bit integer. -/
def productListNestedAttributes : List (String × AttrType) :=
  [ ("product_code", .StringType),
    ("product_name", .StringType),
    ("product_type", .StringType),
    ("product_description", .StringType),
    ("infra_resource_type", .StringType),
    ("cpu_count", .Int64Type),
    ("memory_size", .Int64Type),
    ("disk_type", .StringType) ]

/-- Two attribute tables describe the same map: each entry of one is an entry of the other,
and no name is listed twice. -/
def sameAttributes (a b : List (String × AttrType)) : Bool :=
  a.all (fun e => b.lookup e.1 == some e.2) && b.all (fun e => a.lookup e.1 == some e.2) &&
    decide ((a.map Prod.fst).Nodup) && decide ((b.map Prod.fst).Nodup)

/-- Framework reflection `FromStruct`: the struct's tagged fields and the object type's
attributes must name each other, and each field value must be of the attribute's type;
then the object holds the field values. Any mismatch is a conversion error. -/
def FromStruct (attrTypes : List (String × AttrType)) (fields : List (String × AttrValue)) :
    Except Diagnostic TfObject :=
  let objectMissing := fields.filter (fun f => (attrTypes.lookup f.1).isNone)
  let structMissing := attrTypes.filter (fun a => (fields.lookup a.1).isNone)
  if !objectMissing.isEmpty || !structMissing.isEmpty then
    .error ⟨.error, "Value Conversion Error", "mismatch between struct and object"⟩
  else if fields.all (fun f => attrTypes.lookup f.1 == some f.2.Type) then
    .ok (.value fields)
  else
    .error ⟨.error, "Value Conversion Error", "unexpected value type"⟩

/-- Framework reflection `FromPointer` at a `*mysqlProductModel`: the nil pointer is the
null object, otherwise the pointed-to struct is converted. -/
def FromPointer (attrTypes : List (String × AttrType)) (p : Ptr mysqlProductModel) :
    Except Diagnostic TfObject :=
  match p with
  | none => .ok .null
  | some m => FromStruct attrTypes m.tfsdkFields

/-- Framework `types.ListValueFrom` at a `[]*mysqlProductModel`: the nil slice is the null
list; otherwise every element is converted and the list is known; on a conversion error the
result is the unknown list together with the error. -/
def ListValueFrom (attrTypes : List (String × AttrType)) (list : Slice (Ptr mysqlProductModel)) :
    TfList × Diagnostics :=
  match list with
  | .nil => (.null, [])
  | .elems xs =>
    match xs.mapM (FromPointer attrTypes) with
    | .ok es => (.value es, [])
    | .error d => (.unknown, [d])

/-! ## Text: decimal numbers and Go's quoted strings -/

/-- Decimal digit `d` (below ten) as a character. -/
def digitChar (d : Nat) : Char := Char.ofNat (48 + d)

/-- Digits of `n`, most significant first, pushed in front of `acc`. -/
def natDigitsAux : Nat → Nat → List Char → List Char
  | 0, _, acc => acc
  | fuel + 1, n, acc =>
    if n < 10 then digitChar n :: acc
    else natDigitsAux fuel (n / 10) (digitChar (n % 10) :: acc)

/-- Decimal form of a natural number without leading zeros (`"0"` for zero). -/
def natDigits (n : Nat) : List Char := natDigitsAux (n + 1) n []

/-- Number that a run of decimal digits denotes. -/
def digitsValue (ds : List Char) : Nat :=
  ds.foldl (fun acc c => 10 * acc + (c.toNat - 48)) 0

/-- Decimal digit test. -/
def isDigit (c : Char) : Bool := 48 ≤ c.toNat && c.toNat ≤ 57

/-- Go `appendInt(b, x, width)` of package `time` (and `%d` when `width` is zero): a minus
sign for a negative number, then the decimal digits of the absolute value, zero-padded on
the left to at least `width` digits. -/
def appendInt (x : Int) (width : Nat) : List Char :=
  (if x < 0 then [Char.ofNat 45] else []) ++
    (List.replicate (width - (natDigits x.natAbs).length) (Char.ofNat 48) ++ natDigits x.natAbs)

/-- Lower-case hexadecimal digit. -/
def hexDigit (d : Nat) : Char :=
  if d < 10 then Char.ofNat (48 + d) else Char.ofNat (87 + d)

/-- Exactly `width` lower-case hexadecimal digits of `n`. -/
def hexFixed : Nat → Nat → List Char
  | 0, _ => []
  | width + 1, n => hexFixed width (n / 16) ++ [hexDigit (n % 16)]

/-- Go `strconv.IsPrint`: exact on Latin-1, table-driven above it; `unicodeTable` stands for
the tables of package `strconv`. -/
def IsPrint (unicodeTable : Char → Bool) (r : Char) : Bool :=
  if r.toNat ≤ 0xFF then
    (0x20 ≤ r.toNat && r.toNat < 0x7F) || (0xA1 ≤ r.toNat && r.toNat ≠ 0xAD)
  else unicodeTable r

/-- Go `strconv.appendEscapedRune` with the double quote as delimiter, as `strconv.Quote`
calls it. -/
def appendEscapedRune (unicodeTable : Char → Bool) (r : Char) : List Char :=
  if r.toNat = 34 ∨ r.toNat = 92 then [Char.ofNat 92, r]
  else if IsPrint unicodeTable r then [r]
  else if r.toNat = 7 then [Char.ofNat 92, 'a']
  else if r.toNat = 8 then [Char.ofNat 92, 'b']
  else if r.toNat = 12 then [Char.ofNat 92, 'f']
  else if r.toNat = 10 then [Char.ofNat 92, 'n']
  else if r.toNat = 13 then [Char.ofNat 92, 'r']
  else if r.toNat = 9 then [Char.ofNat 92, 't']
  else if r.toNat = 11 then [Char.ofNat 92, 'v']
  else if r.toNat < 0x20 ∨ r.toNat = 0x7F then Char.ofNat 92 :: 'x' :: hexFixed 2 r.toNat
  else if r.toNat < 0x10000 then Char.ofNat 92 :: 'u' :: hexFixed 4 r.toNat
  else Char.ofNat 92 :: 'U' :: hexFixed 8 r.toNat

/-- Go `strconv.Quote`, which `%q` prints: the escaped runes between two double quotes. -/
def Quote (unicodeTable : Char → Bool) (s : String) : String :=
  String.mk (Char.ofNat 34 :: (s.data.flatMap (appendEscapedRune unicodeTable) ++ [Char.ofNat 34]))

/-- Framework `attr.NullValueString`. -/
def NullValueString : String := "<null>"

/-- Framework `attr.UnknownValueString`. -/
def UnknownValueString : String := "<unknown>"

/-- Method `String` of `types.String`: the quoted (`%q`) form of a known value. -/
def TfString.String (unicodeTable : Char → Bool) : TfString → String
  | .unknown => UnknownValueString
  | .null => NullValueString
  | .value s => Quote unicodeTable s

/-- Method `String` of `types.Int64`: `%d` of a known value. -/
def TfInt64.String : TfInt64 → String
  | .unknown => UnknownValueString
  | .null => NullValueString
  | .value n => String.mk (appendInt n 0)

/-- Method `String` of a primitive attribute value. -/
def AttrValue.String (unicodeTable : Char → Bool) : AttrValue → String
  | .string v => v.String unicodeTable
  | .int64 v => v.String

/-- Byte-wise order of two texts, as Go compares strings. -/
def textLE : List Char → List Char → Bool
  | [], _ => true
  | _ :: _, [] => false
  | a :: as, b :: bs => a.toNat < b.toNat || (a.toNat == b.toNat && textLE as bs)

/-- Insertion of a key into a sorted list of keys. -/
def insertKey (k : String) : List String → List String
  | [] => [k]
  | x :: xs => if textLE k.data x.data then k :: x :: xs else x :: insertKey k xs

/-- Go `sort.Strings`. -/
def sortStrings (keys : List String) : List String :=
  keys.foldr insertKey []

/-- Value stored under `k` in an attribute map. -/
def attributeString (unicodeTable : Char → Bool) (attributes : List (String × AttrValue))
    (k : String) : String :=
  match attributes.lookup k with
  | some v => v.String unicodeTable
  | none => ""

/-- Method `String` of `types.Object`: for a known object, the entries `"name":value` in the
order of the sorted names, separated by commas, between braces. -/
def TfObject.String (unicodeTable : Char → Bool) : TfObject → String
  | .unknown => UnknownValueString
  | .null => NullValueString
  | .value attributes =>
    "\x7b" ++
      ",".intercalate ((sortStrings (attributes.map Prod.fst)).map
        (fun k => "\"" ++ k ++ "\":" ++ attributeString unicodeTable attributes k)) ++
      "\x7d"

/-! ## `encoding/json`: `Unmarshal` into `mysqlProductsToJsonConvert` -/

/-- Parsed JSON text. A number keeps its literal. -/
inductive Json where
  | null
  | bool (b : Bool)
  | number (literal : List Char)
  | string (s : List Char)
  | array (items : List Json)
  | object (members : List (List Char × Json))

/-- JSON white space: space, tab, carriage return, line feed. -/
def isJsonSpace (c : Char) : Bool :=
  c.toNat = 32 || c.toNat = 9 || c.toNat = 13 || c.toNat = 10

/-- Input without its leading white space. -/
def skipSpace : List Char → List Char
  | [] => []
  | c :: cs => if isJsonSpace c then skipSpace cs else c :: cs

/-- Value of a hexadecimal digit. -/
def hexValue (c : Char) : Option Nat :=
  if 48 ≤ c.toNat ∧ c.toNat ≤ 57 then some (c.toNat - 48)
  else if 97 ≤ c.toNat ∧ c.toNat ≤ 102 then some (c.toNat - 87)
  else if 65 ≤ c.toNat ∧ c.toNat ≤ 70 then some (c.toNat - 55)
  else none

/-- Value of four hexadecimal digits (`getu4`). -/
def hex4 (a b c d : Char) : Option Nat := do
  let x ← hexValue a
  let y ← hexValue b
  let z ← hexValue c
  let w ← hexValue d
  pure (((x * 16 + y) * 16 + z) * 16 + w)

/-- Character named by a one-letter escape of a JSON string. -/
def simpleEscape (c : Char) : Option Char :=
  if c.toNat = 34 ∨ c.toNat = 92 ∨ c.toNat = 47 then some c
  else if c = 'b' then some (Char.ofNat 8)
  else if c = 'f' then some (Char.ofNat 12)
  else if c = 'n' then some (Char.ofNat 10)
  else if c = 'r' then some (Char.ofNat 13)
  else if c = 't' then some (Char.ofNat 9)
  else none

/-- Body of a JSON string after its opening quote: the decoded characters and the input
after the closing quote. A `\u` escape that holds a high surrogate is combined with a
following `\u` escape that holds a low surrogate; an unpaired surrogate decodes to
U+FFFD. -/
def scanString : Nat → List Char → List Char → Option (List Char × List Char)
  | 0, _, _ => none
  | _ + 1, [], _ => none
  | fuel + 1, c :: cs, acc =>
    if c.toNat = 34 then some (acc.reverse, cs)
    else if c.toNat = 92 then
      match cs with
      | [] => none
      | e :: rest =>
        if e = 'u' then
          match rest with
          | a :: b :: c2 :: d :: rest2 =>
            match hex4 a b c2 d with
            | none => none
            | some r =>
              if 0xD800 ≤ r ∧ r < 0xDC00 then
                match rest2 with
                | b1 :: u1 :: a2 :: b2 :: c3 :: d2 :: rest3 =>
                  if b1.toNat = 92 ∧ u1 = 'u' then
                    match hex4 a2 b2 c3 d2 with
                    | some r2 =>
                      if 0xDC00 ≤ r2 ∧ r2 < 0xE000 then
                        scanString fuel rest3
                          (Char.ofNat (0x10000 + (r - 0xD800) * 0x400 + (r2 - 0xDC00)) :: acc)
                      else scanString fuel rest2 (Char.ofNat 0xFFFD :: acc)
                    | none => scanString fuel rest2 (Char.ofNat 0xFFFD :: acc)
                  else scanString fuel rest2 (Char.ofNat 0xFFFD :: acc)
                | _ => scanString fuel rest2 (Char.ofNat 0xFFFD :: acc)
              else if 0xDC00 ≤ r ∧ r < 0xE000 then scanString fuel rest2 (Char.ofNat 0xFFFD :: acc)
              else scanString fuel rest2 (Char.ofNat r :: acc)
          | _ => none
        else
          match simpleEscape e with
          | some ch => scanString fuel rest (ch :: acc)
          | none => none
    else if c.toNat < 0x20 then none
    else scanString fuel cs (c :: acc)

/-- Longest run of decimal digits at the front of the input, and the rest. -/
def spanDigits : List Char → List Char × List Char
  | [] => ([], [])
  | c :: cs => if isDigit c then ((spanDigits cs).1.cons c, (spanDigits cs).2) else ([], c :: cs)

/-- JSON number at the front of the input: its literal and the rest. -/
def scanNumber (input : List Char) : Option (List Char × List Char) :=
  let (sign, r0) : List Char × List Char :=
    match input with
    | c :: cs => if c.toNat = 45 then ([c], cs) else ([], c :: cs)
    | [] => ([], [])
  let intPart : Option (List Char × List Char) :=
    match r0 with
    | c :: cs =>
      if c.toNat = 48 then some ([c], cs)
      else if isDigit c then some ((spanDigits (c :: cs)).1, (spanDigits (c :: cs)).2)
      else none
    | [] => none
  match intPart with
  | none => none
  | some (ds, r1) =>
    let fracPart : Option (List Char × List Char) :=
      match r1 with
      | c :: cs =>
        if c.toNat = 46 then
          (if (spanDigits cs).1.isEmpty then none
           else some (c :: (spanDigits cs).1, (spanDigits cs).2))
        else some ([], r1)
      | [] => some ([], [])
    match fracPart with
    | none => none
    | some (fs, r2) =>
      let expPart : Option (List Char × List Char) :=
        match r2 with
        | c :: cs =>
          if c = 'e' ∨ c = 'E' then
            let (sg, r3) : List Char × List Char :=
              match cs with
              | x :: xs => if x.toNat = 43 ∨ x.toNat = 45 then ([x], xs) else ([], x :: xs)
              | [] => ([], [])
            (if (spanDigits r3).1.isEmpty then none
             else some (c :: sg ++ (spanDigits r3).1, (spanDigits r3).2))
          else some ([], r2)
        | [] => some ([], [])
      match expPart with
      | none => none
      | some (es, r4) => some (sign ++ ds ++ fs ++ es, r4)

/-- Input after the given word, when the input starts with it. -/
def stripWord : List Char → List Char → Option (List Char)
  | [], input => some input
  | _ :: _, [] => none
  | w :: ws, c :: cs => if w = c then stripWord ws cs else none

/-- Nesting limit of the scanner of `encoding/json`. -/
def maxNestingDepth : Nat := 10000

mutual

/-- One JSON value at the front of the input (after white space), and the rest. -/
def parseValue : Nat → Nat → List Char → Option (Json × List Char)
  | 0, _, _ => none
  | fuel + 1, depth, input =>
    match skipSpace input with
    | [] => none
    | c :: cs =>
      if c.toNat = 123 then
        if depth + 1 > maxNestingDepth then none
        else
          match skipSpace cs with
          | [] => none
          | d :: ds =>
            if d.toNat = 125 then some (.object [], ds)
            else parseMembers fuel (depth + 1) (d :: ds) []
      else if c.toNat = 91 then
        if depth + 1 > maxNestingDepth then none
        else
          match skipSpace cs with
          | [] => none
          | d :: ds =>
            if d.toNat = 93 then some (.array [], ds)
            else parseElements fuel (depth + 1) (d :: ds) []
      else if c.toNat = 34 then
        match scanString (cs.length + 1) cs [] with
        | some (str, rest) => some (.string str, rest)
        | none => none
      else if c = 't' then (stripWord ['r', 'u', 'e'] cs).map (fun rest => (.bool true, rest))
      else if c = 'f' then
        (stripWord ['a', 'l', 's', 'e'] cs).map (fun rest => (.bool false, rest))
      else if c = 'n' then (stripWord ['u', 'l', 'l'] cs).map (fun rest => (.null, rest))
      else if c.toNat = 45 ∨ isDigit c then
        match scanNumber (c :: cs) with
        | some (lit, rest) => some (.number lit, rest)
        | none => none
      else none

/-- Members of an object after its opening brace or after a comma, up to the closing
brace. -/
def parseMembers : Nat → Nat → List Char → List (List Char × Json) → Option (Json × List Char)
  | 0, _, _, _ => none
  | fuel + 1, depth, input, acc =>
    match skipSpace input with
    | [] => none
    | c :: cs =>
      if c.toNat = 34 then
        match scanString (cs.length + 1) cs [] with
        | none => none
        | some (key, rest) =>
          match skipSpace rest with
          | [] => none
          | colon :: rest2 =>
            if colon.toNat = 58 then
              match parseValue fuel depth rest2 with
              | none => none
              | some (v, rest3) =>
                match skipSpace rest3 with
                | [] => none
                | sep :: rest4 =>
                  if sep.toNat = 44 then parseMembers fuel depth rest4 (acc ++ [(key, v)])
                  else if sep.toNat = 125 then some (.object (acc ++ [(key, v)]), rest4)
                  else none
            else none
      else none

/-- Elements of an array after its opening bracket or after a comma, up to the closing
bracket. -/
def parseElements : Nat → Nat → List Char → List Json → Option (Json × List Char)
  | 0, _, _, _ => none
  | fuel + 1, depth, input, acc =>
    match parseValue fuel depth input with
    | none => none
    | some (v, rest) =>
      match skipSpace rest with
      | [] => none
      | sep :: rest2 =>
        if sep.toNat = 44 then parseElements fuel depth rest2 (acc ++ [v])
        else if sep.toNat = 93 then some (.array (acc ++ [v]), rest2)
        else none

end

/-- Whole text as one JSON value (`checkValid` followed by the decoding scan): `none` on a
syntax error. -/
def parseJson (data : String) : Option Json :=
  match parseValue (2 * data.data.length + 2) 0 data.data with
  | some (v, rest) => if (skipSpace rest).isEmpty then some v else none
  | none => none

/-- Go struct `mysqlProductsToJsonConvert` (`int` is the 64-bit integer). -/
structure mysqlProductsToJsonConvert where
  ProductCode : String
  ProductName : String
  ProductType : String
  ProductDescription : String
  InfraResourceType : String
  CpuCount : Int
  MemorySize : Int
  DiskType : String
  deriving DecidableEq, Repr

/-- Zero value `mysqlProductsToJsonConvert{}`. -/
instance : Inhabited mysqlProductsToJsonConvert := ⟨⟨"", "", "", "", "", 0, 0, ""⟩⟩

/-- Go `strconv.ParseInt(s, 10, 64)` on a JSON number literal: an optional minus sign and
decimal digits only, within the 64-bit range. -/
def parseInt64 (literal : List Char) : Option Int :=
  let (negative, ds) : Bool × List Char :=
    match literal with
    | c :: cs => if c.toNat = 45 then (true, cs) else (false, c :: cs)
    | [] => (false, [])
  if ds.isEmpty || !ds.all isDigit then none
  else
    let n : Nat := digitsValue ds
    let v : Int := if negative then -(n : Int) else (n : Int)
    if -9223372036854775808 ≤ v ∧ v ≤ 9223372036854775807 then some v else none

/-- Case folding under which `encoding/json` matches an object key with a field name. -/
def foldRune (c : Char) : Char :=
  if 65 ≤ c.toNat ∧ c.toNat ≤ 90 then Char.ofNat (c.toNat + 32)
  else if c.toNat = 0x17F then 's'
  else if c.toNat = 0x212A then 'k'
  else c

/-- Decoding of a JSON value into a `string` field: a string is stored, `null` leaves the
field, anything else is a type error that leaves the field. -/
def storeString (old : String) (val : Json) : String × Bool :=
  match val with
  | .string str => (String.mk str, false)
  | .null => (old, false)
  | _ => (old, true)

/-- Decoding of a JSON value into an `int` field: an integer literal in range is stored,
`null` leaves the field, anything else is a type error that leaves the field. -/
def storeInt (old : Int) (val : Json) : Int × Bool :=
  match val with
  | .number literal =>
    match parseInt64 literal with
    | some n => (n, false)
    | none => (old, true)
  | .null => (old, false)
  | _ => (old, true)

/-- Decoding of one object member into the field whose `json` tag matches the key; a key
that matches no tag is skipped. The flag reports a type error. -/
def mysqlProductsToJsonConvert.store (v : mysqlProductsToJsonConvert) (key : List Char)
    (val : Json) : mysqlProductsToJsonConvert × Bool :=
  let name := String.mk (key.map foldRune)
  if name = "product_code" then
    ({ v with ProductCode := (storeString v.ProductCode val).1 }, (storeString v.ProductCode val).2)
  else if name = "product_name" then
    ({ v with ProductName := (storeString v.ProductName val).1 }, (storeString v.ProductName val).2)
  else if name = "product_type" then
    ({ v with ProductType := (storeString v.ProductType val).1 }, (storeString v.ProductType val).2)
  else if name = "product_description" then
    ({ v with ProductDescription := (storeString v.ProductDescription val).1 },
      (storeString v.ProductDescription val).2)
  else if name = "infra_resource_type" then
    ({ v with InfraResourceType := (storeString v.InfraResourceType val).1 },
      (storeString v.InfraResourceType val).2)
  else if name = "cpu_count" then
    ({ v with CpuCount := (storeInt v.CpuCount val).1 }, (storeInt v.CpuCount val).2)
  else if name = "memory_size" then
    ({ v with MemorySize := (storeInt v.MemorySize val).1 }, (storeInt v.MemorySize val).2)
  else if name = "disk_type" then
    ({ v with DiskType := (storeString v.DiskType val).1 }, (storeString v.DiskType val).2)
  else (v, false)

/-- Go `json.Unmarshal(data, &v)` at a `mysqlProductsToJsonConvert`: a text that is not valid
JSON is rejected before anything is stored; the members of an object are decoded in order;
`null` stores nothing; any other value is a type error. The flag is `err != nil`. -/
def jsonUnmarshal (data : String) (v : mysqlProductsToJsonConvert) :
    mysqlProductsToJsonConvert × Bool :=
  match parseJson data with
  | none => (v, true)
  | some (.object members) =>
    members.foldl
      (fun acc kv => ((acc.1.store kv.1 kv.2).1, acc.2 || (acc.1.store kv.1 kv.2).2))
      (v, false)
  | some .null => (v, false)
  | some _ => (v, true)

/-! ## `time.Now().UTC().String()` -/

/-- Go `time.Time`: the instant as seconds since the Unix epoch and nanoseconds within the
second, the zone in effect (abbreviation and offset in seconds east of UTC), and the
monotonic clock reading in nanoseconds when there is one. -/
structure Time where
  sec : Int
  nsec : Fin 1000000000
  zoneName : String
  zoneOffset : Int
  monotonic : Option Int

/-- Method `UTC`: the same instant in the UTC zone, without monotonic reading. -/
def Time.UTC (t : Time) : Time :=
  { t with zoneName := "UTC", zoneOffset := 0, monotonic := none }

/-- Year within a 400-year era and day within that year, for a day of the era; eras and
years start on March 1, so that the leap day is the last day of its year. -/
def yearOfEra (doe : Int) : Int × Int :=
  let c := min (doe / 36524) 3
  let r1 := doe - 36524 * c
  let q := r1 / 1461
  let r2 := r1 - 1461 * q
  let y1 := min (r2 / 365) 3
  (100 * c + 4 * q + y1, r2 - 365 * y1)

/-- Month (1 to 12) and day of the month of a day of the year that starts on March 1. -/
def monthDay (doy : Int) : Int × Int :=
  let mp := (5 * doy + 2) / 153
  (if mp < 10 then mp + 3 else mp - 9, doy - (153 * mp + 2) / 5 + 1)

/-- Calendar date (proleptic Gregorian year, month, day) of a day number counted from
1970-01-01, as method `Date` computes it. -/
def civilFromDays (days : Int) : Int × Int × Int :=
  let z := days + 719468
  let era := z / 146097
  let doe := z % 146097
  let yd := yearOfEra doe
  let md := monthDay yd.2
  ((400 * era + yd.1) + (if md.1 ≤ 2 then 1 else 0), md.1, md.2)

/-- Digits of the fraction of a second as layout element `.999999999` prints them: nothing
for zero, otherwise a dot and nine digits without the trailing zeros. -/
def appendNano (nanosec : Nat) : List Char :=
  if nanosec = 0 then []
  else Char.ofNat 46 :: ((appendInt nanosec 9).reverse.dropWhile (fun c => c.toNat = 48)).reverse

/-- Layout element `-0700`: sign, hours and minutes of the zone offset. -/
def appendNumTZ (offset : Int) : List Char :=
  let zone := Int.tdiv offset 60
  (if zone < 0 then [Char.ofNat 45] else [Char.ofNat 43]) ++
    appendInt (zone.natAbs / 60) 2 ++ appendInt (zone.natAbs % 60) 2

/-- Layout element `MST`: the zone abbreviation, or the numeric offset when there is
none. -/
def appendTZ (name : String) (offset : Int) : List Char :=
  if name ≠ "" then name.data else appendNumTZ offset

/-- Monotonic clock suffix ` m=±ddd.nnnnnnnnn` of `Time.String`. -/
def appendMonotonic (ext : Int) : List Char :=
  let m2 := ext.natAbs
  let m1 := m2 / 1000000000
  let m0 := m1 / 1000000000
  [' ', 'm', '='] ++ [if ext < 0 then Char.ofNat 45 else Char.ofNat 43] ++
    (if m0 ≠ 0 then appendInt m0 0 ++ appendInt (m1 % 1000000000 : Nat) 9
     else appendInt (m1 % 1000000000 : Nat) 0) ++
    [Char.ofNat 46] ++ appendInt (m2 % 1000000000 : Nat) 9

/-- Layout `2006-01-02 15:04:05.999999999 -0700 MST` applied to the fields of a time. -/
def layoutDefault (year month day hour minute second : Int) (nanosec : Nat)
    (zoneName : String) (zoneOffset : Int) : List Char :=
  appendInt year 4 ++ (Char.ofNat 45 :: (appendInt month 2 ++ (Char.ofNat 45 ::
    (appendInt day 2 ++ (' ' :: (appendInt hour 2 ++ (':' :: (appendInt minute 2 ++ (':' ::
      (appendInt second 2 ++ (appendNano nanosec ++ (' ' ::
        (appendNumTZ zoneOffset ++ (' ' :: appendTZ zoneName zoneOffset))))))))))))))

/-- Method `Format` with the layout `2006-01-02 15:04:05.999999999 -0700 MST`: the date and
the clock of the instant shifted by the zone offset. -/
def Time.formatDefault (t : Time) : List Char :=
  let abs := t.sec + t.zoneOffset
  let date := civilFromDays (abs / 86400)
  let rem := abs % 86400
  layoutDefault date.1 date.2.1 date.2.2 (rem / 3600) (rem % 3600 / 60) (rem % 60) t.nsec.val
    t.zoneName t.zoneOffset

/-- Method `String`: the default layout, followed by the monotonic clock reading when the
value carries one. -/
def Time.String (t : Time) : String :=
  String.mk (t.formatDefault ++
    (match t.monotonic with
     | some ext => appendMonotonic ext
     | none => []))

/-! ## `mysqlProductList` and `Read` -/

/-- Go struct `mysqlProductList`; `σ` is the representation of the `filter` set
(`types.Set`), which only `common.FilterModels` inspects. -/
structure mysqlProductList (σ : Type) where
  ID : TfString
  CloudMysqlImageProductCode : TfString
  ProductCode : TfString
  ExclusionProductCode : TfString
  ProductList : TfList
  OutputFile : TfString
  Filters : σ

/-- Method `(m *mysqlProductList) refreshFromOutput(ctx, list)`; `now` is the value of
`time.Now()`. The diagnostics of `ListValueFrom` are discarded. -/
def mysqlProductList.refreshFromOutput {σ : Type} (m : mysqlProductList σ) (now : Time)
    (list : Slice (Ptr mysqlProductModel)) : mysqlProductList σ :=
  let productListValue := (ListValueFrom (default : mysqlProductModel).attrTypes list).1
  let m := { m with ProductList := productListValue }
  { m with ID := StringValue now.UTC.String }

/-- SDK `vmysql.GetCloudMysqlProductListRequest`. -/
structure GetCloudMysqlProductListRequest where
  RegionCode : Ptr String
  CloudMysqlImageProductCode : Ptr String
  ProductCode : Ptr String
  ExclusionProductCode : Ptr String
  deriving DecidableEq, Repr

/-- SDK `vmysql.GetCloudMysqlProductListResponse`, the field `Read` uses. -/
structure GetCloudMysqlProductListResponse where
  ProductList : Slice (Ptr Product)
  deriving DecidableEq, Repr

/-- What `Read` receives from its surroundings: the outcome of `req.Config.Get`, the SDK
call `m.config.Client.Vmysql.V2Api.GetCloudMysqlProductList` (its response pointer and the
text of its error, when it returns one), the helpers of package `common`, the clock, the
Unicode tables of `strconv`, and the diagnostics of `resp.State.Set`. -/
structure ReadEnv (σ : Type) where
  configData : mysqlProductList σ
  configDiagnostics : Diagnostics
  GetCloudMysqlProductList :
    GetCloudMysqlProductListRequest → Ptr GetCloudMysqlProductListResponse × Option String
  FilterModels : σ → Slice (Ptr mysqlProductModel) → Slice (Ptr mysqlProductModel)
  MarshalUncheckedString : GetCloudMysqlProductListRequest → String
  now : Time
  unicodeTable : Char → Bool
  stateSetDiagnostics : mysqlProductList σ → Diagnostics

/-- Observable outcome of `Read`: the response diagnostics, the request passed to
`GetCloudMysqlProductList` (when the call was made), the arguments of `common.WriteToFile`
(when it was called), the value passed to `resp.State.Set` (when it was called), and the
panic that ended the call (when one did). -/
structure ReadOutcome (σ : Type) where
  Diagnostics : Diagnostics
  request : Option GetCloudMysqlProductListRequest
  written : Option (String × List mysqlProductsToJsonConvert)
  State : Option (mysqlProductList σ)
  panicked : Option Panic

/-- Request parameters `reqParams` that `Read` builds from the provider configuration and
the decoded data (lines 118 to 129). -/
def buildRequest {σ : Type} (config : ProviderConfig) (data : mysqlProductList σ) :
    GetCloudMysqlProductListRequest :=
  let reqParams : GetCloudMysqlProductListRequest :=
    { RegionCode := some config.RegionCode
      CloudMysqlImageProductCode := data.CloudMysqlImageProductCode.ValueStringPointer
      ProductCode := none
      ExclusionProductCode := none }
  let reqParams :=
    if !data.ProductCode.IsNull && !data.ProductCode.IsUnknown then
      { reqParams with ProductCode := data.ProductCode.ValueStringPointer }
    else reqParams
  if !data.ExclusionProductCode.IsNull && !data.ExclusionProductCode.IsUnknown then
    { reqParams with ExclusionProductCode := data.ExclusionProductCode.ValueStringPointer }
  else reqParams

/-- Loop of lines 155 to 160: one record per element of `product_list`, each decoded from
the element's `String()` with the error of `json.Unmarshal` dropped. -/
def recordsToConvert (unicodeTable : Char → Bool) (productList : TfList) :
    List mysqlProductsToJsonConvert :=
  productList.Elements.foldl
    (fun mysqlImagesToConvert image =>
      mysqlImagesToConvert ++ [(jsonUnmarshal (image.String unicodeTable) default).1])
    []

/-- Lines 150 to 168 of `Read`, after a successful SDK call: flatten, filter, refresh,
convert, write the file when asked to, set the state. -/
def readSuccess {σ : Type} (env : ReadEnv σ) (diagnostics : Diagnostics)
    (reqParams : GetCloudMysqlProductListRequest)
    (mysqlProductResp : Ptr GetCloudMysqlProductListResponse) : ReadOutcome σ :=
  match mysqlProductResp.deref >>= fun resp => flattenMysqlProduct resp.ProductList with
  | .error p =>
    { Diagnostics := diagnostics, request := some reqParams, written := none, State := none,
      panicked := some p }
  | .ok mysqlProductList =>
    let fillteredList := env.FilterModels env.configData.Filters mysqlProductList
    let data := env.configData.refreshFromOutput env.now fillteredList
    let mysqlImagesToConvert := recordsToConvert env.unicodeTable data.ProductList
    let written :=
      if !data.OutputFile.IsNull && data.OutputFile.String env.unicodeTable ≠ "" then
        some (data.OutputFile.ValueString, mysqlImagesToConvert)
      else none
    { Diagnostics := diagnostics.Append (env.stateSetDiagnostics data),
      request := some reqParams, written := written, State := some data, panicked := none }

/-- Method `Read`. `respDiagnostics` is `resp.Diagnostics` on entry. The two `tflog.Info`
calls have no effect on the outcome. -/
def mysqlProductsDataSource.Read {σ : Type} (m : mysqlProductsDataSource) (env : ReadEnv σ)
    (respDiagnostics : Diagnostics) : ReadOutcome σ :=
  let data := env.configData
  let diagnostics := respDiagnostics.Append env.configDiagnostics
  if diagnostics.HasError then
    { Diagnostics := diagnostics, request := none, written := none, State := none,
      panicked := none }
  else
    match m.config with
    | none =>
      { Diagnostics := diagnostics, request := none, written := none, State := none,
        panicked := some .nilDereference }
    | some config =>
      let reqParams := buildRequest config data
      match (env.GetCloudMysqlProductList reqParams).2 with
      | some err =>
        let diags : Diagnostics := Diagnostics.AddError [] "GetMysqlProductList"
          ("error: " ++ err ++ ", reqParams: " ++ env.MarshalUncheckedString reqParams)
        { Diagnostics := diagnostics.Append diags, request := some reqParams,
          written := none, State := none, panicked := none }
      | none => readSuccess env diagnostics reqParams (env.GetCloudMysqlProductList reqParams).1

/-! ## Sample inputs -/

/-- A vendor product with every field present. -/
def sampleProduct : Product :=
  { ProductCode := some "SVR.VDBAS.STAND.C002.M008"
    ProductName := some "vCPU 2EA, Memory 8GB"
    ProductType := some ⟨some "STAND", some "Standard"⟩
    ProductDescription := some "vCPU 2EA, Memory 8GB"
    InfraResourceType := some ⟨some "VMYSQL", none⟩
    CpuCount := some 2
    MemorySize := some 8589934592
    DiskType := some ⟨some "NET", none⟩ }

/-- The sample product as the vendor sends it without a CPU count. -/
def productWithoutCpuCount : Product :=
  { sampleProduct with CpuCount := none }

/-- The sample product as the vendor sends it without a description. -/
def productWithoutDescription : Product :=
  { sampleProduct with ProductDescription := none }

/-- A decoded configuration: only the image product code and an output file are set. -/
def sampleData (outputFile : TfString) : mysqlProductList Unit :=
  { ID := .null
    CloudMysqlImageProductCode := .value "SW.VDBAS.DBAAS.LNX64.CNTOS.0708.MYSQL.8025.B050"
    ProductCode := .null
    ExclusionProductCode := .value "SVR.VDBAS.HICPU.C004.M008"
    ProductList := .null
    OutputFile := outputFile
    Filters := () }

/-- A clock reading: 2024-11-04 11:30:00.123456 UTC, read in the zone KST. -/
def sampleNow : Time :=
  { sec := 1730719800, nsec := 123456000, zoneName := "KST", zoneOffset := 32400,
    monotonic := some 12345 }

/-- Surroundings of `Read` in which the SDK returns `products` (or fails with `err`), no
filter drops anything, and decoding and state setting raise no diagnostic. -/
def sampleEnv (outputFile : TfString) (products : Slice (Ptr Product)) (err : Option String) :
    ReadEnv Unit :=
  { configData := sampleData outputFile
    configDiagnostics := []
    GetCloudMysqlProductList := fun _ => (some ⟨products⟩, err)
    FilterModels := fun _ list => list
    MarshalUncheckedString := fun _ => "<request>"
    now := sampleNow
    unicodeTable := fun _ => false
    stateSetDiagnostics := fun _ => [] }

/-- A data source configured for the region `KR`. -/
def sampleDataSource : mysqlProductsDataSource := ⟨some ⟨"KR", 0⟩⟩

/-! ## Theorems -/

/-- Appending one diagnostic that is not stored yet puts it at the end. -/
theorem Diagnostics.append_single_fresh (diags : Diagnostics) (d : Diagnostic)
    (h : diags.Contains d = false) : diags.Append [d] = diags ++ [d] := by
  simp [Diagnostics.Append, h]

/-- A sequence without error diagnostics contains no error diagnostic. -/
theorem Diagnostics.not_contains_of_no_error (diags : Diagnostics) (d : Diagnostic)
    (hd : d.severity = .error) (h : diags.HasError = false) : diags.Contains d = false := by
  simp only [Diagnostics.HasError, Diagnostics.Contains, List.any_eq_false, decide_eq_true_eq] at h ⊢
  intro x hx hxd
  exact h x hx (hxd ▸ hd)

/-- The count of error diagnostics with a summary grows by one when such a diagnostic is
put at the end. -/
theorem Diagnostics.errorCount_append_one (diags : Diagnostics) (summary detail : String) :
    Diagnostics.errorCount (diags ++ [⟨.error, summary, detail⟩]) summary =
      Diagnostics.errorCount diags summary + 1 := by
  simp [Diagnostics.errorCount, List.filter_append]

/-- C6. `Configure` on the nil provider data adds no diagnostic and keeps the stored config;
on a `*conn.ProviderConfig` it stores that value and adds no diagnostic; on any other
non-nil value it keeps the stored config and appends one error diagnostic with summary
"Unexpected Data Source Configure Type": it is the only diagnostic when the response
started empty, and the last one, raising the count of such diagnostics by one, whenever
no equal diagnostic was stored before. -/
theorem configure_cases (m : mysqlProductsDataSource) (diags : Diagnostics) :
    m.Configure .nil diags = (m, diags) ∧
    (∀ p : Ptr ProviderConfig,
      ((m.Configure (.providerConfig p) diags).1).config = p ∧
      (m.Configure (.providerConfig p) diags).2 = diags) ∧
    (∀ typeName : String,
      (m.Configure (.other typeName) diags).1 = m ∧
      (m.Configure (.other typeName) []).2 =
        [⟨.error, "Unexpected Data Source Configure Type",
          "Expected *ProviderConfig, got: " ++ typeName ++
            ". Please report this issue to the provider developers."⟩] ∧
      (diags.Contains ⟨.error, "Unexpected Data Source Configure Type",
          "Expected *ProviderConfig, got: " ++ typeName ++
            ". Please report this issue to the provider developers."⟩ = false →
        (m.Configure (.other typeName) diags).2 =
          diags ++ [⟨.error, "Unexpected Data Source Configure Type",
            "Expected *ProviderConfig, got: " ++ typeName ++
              ". Please report this issue to the provider developers."⟩] ∧
        Diagnostics.errorCount (m.Configure (.other typeName) diags).2
            "Unexpected Data Source Configure Type" =
          Diagnostics.errorCount diags "Unexpected Data Source Configure Type" + 1)) := by
  refine ⟨rfl, fun p => ⟨rfl, rfl⟩, fun typeName => ⟨rfl, ?_, ?_⟩⟩
  · simp [mysqlProductsDataSource.Configure, Diagnostics.AddError, Diagnostics.Append,
      Diagnostics.Contains]
  · intro h
    have h2 := Diagnostics.append_single_fresh diags _ h
    simp only [mysqlProductsDataSource.Configure, Diagnostics.AddError]
    rw [h2]
    exact ⟨rfl, Diagnostics.errorCount_append_one diags _ _⟩

/-- C6 at a concrete input: a data source that holds a config, provider data of dynamic type
`string`, and a response that already carries a warning. -/
theorem configure_cases_witness :
    Diagnostics.Contains [⟨.warning, "w", "d"⟩]
        ⟨.error, "Unexpected Data Source Configure Type",
          "Expected *ProviderConfig, got: " ++ "string" ++
            ". Please report this issue to the provider developers."⟩ = false ∧
    (mysqlProductsDataSource.Configure ⟨some ⟨"KR", 1⟩⟩ (.other "string")
        [⟨.warning, "w", "d"⟩]).2 =
      [⟨.warning, "w", "d"⟩] ++
        [⟨.error, "Unexpected Data Source Configure Type",
          "Expected *ProviderConfig, got: " ++ "string" ++
            ". Please report this issue to the provider developers."⟩] :=
  ⟨by decide,
    (((configure_cases ⟨some ⟨"KR", 1⟩⟩ [⟨.warning, "w", "d"⟩]).2.2 "string").2.2
      (by decide)).1⟩

/-- C7. `NewConfiguration` returns the base path `https://ncloud.apigw.ntruss.com/server/v2`
when `NCLOUD_API_GW` is unset or empty and the variable's value followed by `/server/v2`
otherwise, the user agent `server/1.0.0/go`, an empty default header map, and the API key
passed in. -/
theorem newConfiguration_fields (apiKey : Ptr APIKey) :
    (NewConfiguration none apiKey).BasePath = "https://ncloud.apigw.ntruss.com/server/v2" ∧
    (NewConfiguration (some "") apiKey).BasePath = "https://ncloud.apigw.ntruss.com/server/v2" ∧
    (∀ v : String, v ≠ "" → (NewConfiguration (some v) apiKey).BasePath = v ++ "/server/v2") ∧
    (∀ gw : Option String,
      (NewConfiguration gw apiKey).UserAgent = "server/1.0.0/go" ∧
      (NewConfiguration gw apiKey).DefaultHeader = [] ∧
      (NewConfiguration gw apiKey).APIKey = apiKey) := by
  refine ⟨rfl, rfl, fun v hv => ?_, fun gw => ?_⟩
  · simp [NewConfiguration, Getenv, hv]
  · unfold NewConfiguration
    split <;> exact ⟨rfl, rfl, rfl⟩

/-- C7 at a concrete input: the gateway variable set to a private endpoint. -/
theorem newConfiguration_fields_witness :
    "https://gw.example" ≠ "" ∧
    (NewConfiguration (some "https://gw.example") (some ⟨"ak", "sk"⟩)).BasePath =
      "https://gw.example" ++ "/server/v2" :=
  ⟨by decide,
    (newConfiguration_fields (some ⟨"ak", "sk"⟩)).2.2.1 "https://gw.example" (by decide)⟩

/-- The request built for a configuration carries the region code, the image product code,
and the two optional codes exactly when they are known. -/
theorem buildRequest_fields {σ : Type} (config : ProviderConfig) (data : mysqlProductList σ) :
    (buildRequest config data).RegionCode = some config.RegionCode ∧
    (buildRequest config data).CloudMysqlImageProductCode =
      data.CloudMysqlImageProductCode.ValueStringPointer ∧
    (buildRequest config data).ProductCode =
      (match data.ProductCode with
       | .value s => some s
       | _ => none) ∧
    (buildRequest config data).ExclusionProductCode =
      (match data.ExclusionProductCode with
       | .value s => some s
       | _ => none) := by
  unfold buildRequest
  cases h1 : data.ProductCode <;> cases h2 : data.ExclusionProductCode <;>
    simp [TfString.IsNull, TfString.IsUnknown, TfString.ValueStringPointer]

/-- The part of `Read` after the SDK call always reports the request it was given. -/
theorem readSuccess_request {σ : Type} (env : ReadEnv σ) (diagnostics : Diagnostics)
    (reqParams : GetCloudMysqlProductListRequest)
    (resp : Ptr GetCloudMysqlProductListResponse) :
    (readSuccess env diagnostics reqParams resp).request = some reqParams := by
  unfold readSuccess
  cases (resp.deref >>= fun resp => flattenMysqlProduct resp.ProductList) <;> rfl

/-- When `Read` makes the SDK call, the request is the one built from the stored config and
the decoded data. -/
theorem read_request_eq {σ : Type} (m : mysqlProductsDataSource) (env : ReadEnv σ)
    (diags : Diagnostics) (r : GetCloudMysqlProductListRequest)
    (h : (m.Read env diags).request = some r) :
    (diags.Append env.configDiagnostics).HasError = false ∧
    ∃ config, m.config = some config ∧ r = buildRequest config env.configData := by
  unfold mysqlProductsDataSource.Read at h
  by_cases he : (diags.Append env.configDiagnostics).HasError = true
  · simp [he] at h
  · have he2 : (diags.Append env.configDiagnostics).HasError = false := by simpa using he
    simp only [he2, Bool.false_eq_true, if_false] at h
    refine ⟨he2, ?_⟩
    cases hc : m.config with
    | none => simp [hc] at h
    | some config =>
      refine ⟨config, rfl, ?_⟩
      simp only [hc] at h
      cases hapi : (env.GetCloudMysqlProductList (buildRequest config env.configData)).2 with
      | some err =>
        simp only [hapi] at h
        simpa using h.symm
      | none =>
        simp only [hapi] at h
        rw [readSuccess_request] at h
        simpa using h.symm

/-- With a stored config and a configuration that decodes without error, `Read` makes the
SDK call. -/
theorem read_request_sent {σ : Type} (m : mysqlProductsDataSource) (env : ReadEnv σ)
    (diags : Diagnostics) (config : ProviderConfig) (hc : m.config = some config)
    (he : (diags.Append env.configDiagnostics).HasError = false) :
    (m.Read env diags).request = some (buildRequest config env.configData) := by
  unfold mysqlProductsDataSource.Read
  simp only [he, hc]
  cases hapi : (env.GetCloudMysqlProductList (buildRequest config env.configData)).2 with
  | some err => simp
  | none => simp [readSuccess_request]

/-- C9. The request `Read` passes to `GetCloudMysqlProductList` carries the stored config's
region code and the configured `cloud_mysql_image_product_code`; its `ProductCode` is set,
to the configured value, exactly when `product_code` is neither null nor unknown, and its
`ExclusionProductCode` likewise; and `Read` does make the call whenever a config is stored
and the configuration decodes without error. -/
theorem read_request_parameters {σ : Type} (m : mysqlProductsDataSource) (env : ReadEnv σ)
    (diags : Diagnostics) :
    (∀ r, (m.Read env diags).request = some r →
      ∃ config, m.config = some config ∧
        r.RegionCode = some config.RegionCode ∧
        r.CloudMysqlImageProductCode =
          env.configData.CloudMysqlImageProductCode.ValueStringPointer ∧
        (∀ s, env.configData.CloudMysqlImageProductCode = .value s →
          r.CloudMysqlImageProductCode = some s) ∧
        (r.ProductCode.isSome =
          (!env.configData.ProductCode.IsNull && !env.configData.ProductCode.IsUnknown)) ∧
        (∀ s, r.ProductCode = some s ↔ env.configData.ProductCode = .value s) ∧
        (r.ExclusionProductCode.isSome =
          (!env.configData.ExclusionProductCode.IsNull &&
            !env.configData.ExclusionProductCode.IsUnknown)) ∧
        (∀ s, r.ExclusionProductCode = some s ↔
          env.configData.ExclusionProductCode = .value s)) ∧
    (∀ config, m.config = some config →
      (diags.Append env.configDiagnostics).HasError = false →
      ∃ r, (m.Read env diags).request = some r) := by
  constructor
  · intro r hr
    obtain ⟨_, config, hc, rfl⟩ := read_request_eq m env diags r hr
    obtain ⟨h1, h2, h3, h4⟩ := buildRequest_fields config env.configData
    refine ⟨config, hc, h1, h2, ?_, ?_, ?_, ?_, ?_⟩
    · intro s hs
      rw [h2, hs]
      rfl
    · rw [h3]
      cases env.configData.ProductCode <;> rfl
    · intro s
      rw [h3]
      cases env.configData.ProductCode <;> simp
    · rw [h4]
      cases env.configData.ExclusionProductCode <;> rfl
    · intro s
      rw [h4]
      cases env.configData.ExclusionProductCode <;> simp
  · intro config hc he
    exact ⟨_, read_request_sent m env diags config hc he⟩

/-- C9 at a concrete configuration: `product_code` is null and `exclusion_product_code` is
set, so the request carries the region, the image product code and the exclusion code, and
no product code. -/
theorem read_request_parameters_witness :
    (sampleDataSource.Read (sampleEnv .null (.elems [some sampleProduct]) none) []).request =
        some ⟨some "KR", some "SW.VDBAS.DBAAS.LNX64.CNTOS.0708.MYSQL.8025.B050", none,
          some "SVR.VDBAS.HICPU.C004.M008"⟩ ∧
    ∃ config, sampleDataSource.config = some config ∧
      (⟨some "KR", some "SW.VDBAS.DBAAS.LNX64.CNTOS.0708.MYSQL.8025.B050", none,
          some "SVR.VDBAS.HICPU.C004.M008"⟩ : GetCloudMysqlProductListRequest).RegionCode =
        some config.RegionCode :=
  ⟨by decide,
    let ⟨config, hc, hr, _⟩ :=
      (read_request_parameters sampleDataSource
        (sampleEnv .null (.elems [some sampleProduct]) none) []).1 _ (by decide)
    ⟨config, hc, hr⟩⟩

/-- C2. When the SDK call `Read` makes returns an error, `Read` puts exactly one diagnostic
after the ones present before the call: an error with summary "GetMysqlProductList" whose
detail is `error: `, the SDK error's text, `, reqParams: ` and the marshalled request; no
other error diagnostic with that summary is present, the state is not set, no file write is
attempted and the call ends normally. -/
theorem read_sdk_error {σ : Type} (m : mysqlProductsDataSource) (env : ReadEnv σ)
    (diags : Diagnostics) (r : GetCloudMysqlProductListRequest) (e : String)
    (hreq : (m.Read env diags).request = some r)
    (herr : (env.GetCloudMysqlProductList r).2 = some e) :
    (m.Read env diags).Diagnostics =
      diags.Append env.configDiagnostics ++
        [⟨.error, "GetMysqlProductList",
          "error: " ++ e ++ ", reqParams: " ++ env.MarshalUncheckedString r⟩] ∧
    Diagnostics.errorCount (m.Read env diags).Diagnostics "GetMysqlProductList" = 1 ∧
    (∃ before after : String,
      "error: " ++ e ++ ", reqParams: " ++ env.MarshalUncheckedString r =
        before ++ e ++ after) ∧
    (m.Read env diags).State.isNone = true ∧
    (m.Read env diags).written = none ∧
    (m.Read env diags).panicked = none := by
  obtain ⟨he, config, hc, rfl⟩ := read_request_eq m env diags r hreq
  have hfresh := Diagnostics.not_contains_of_no_error (diags.Append env.configDiagnostics)
    ⟨.error, "GetMysqlProductList",
      "error: " ++ e ++ ", reqParams: " ++
        env.MarshalUncheckedString (buildRequest config env.configData)⟩ rfl he
  have hzero : Diagnostics.errorCount (diags.Append env.configDiagnostics)
      "GetMysqlProductList" = 0 := by
    simp only [Diagnostics.errorCount, List.length_eq_zero, List.filter_eq_nil_iff]
    intro x hx
    simp only [Diagnostics.HasError, List.any_eq_false, decide_eq_true_eq] at he
    simp [he x hx]
  have hD : (m.Read env diags).Diagnostics =
      diags.Append env.configDiagnostics ++
        [⟨.error, "GetMysqlProductList",
          "error: " ++ e ++ ", reqParams: " ++
            env.MarshalUncheckedString (buildRequest config env.configData)⟩] := by
    unfold mysqlProductsDataSource.Read
    simp only [he, hc, herr, Bool.false_eq_true, if_false, Diagnostics.AddError]
    have h0 : Diagnostics.Append []
        [(⟨.error, "GetMysqlProductList",
          "error: " ++ e ++ ", reqParams: " ++
            env.MarshalUncheckedString (buildRequest config env.configData)⟩ : Diagnostic)] =
        [⟨.error, "GetMysqlProductList",
          "error: " ++ e ++ ", reqParams: " ++
            env.MarshalUncheckedString (buildRequest config env.configData)⟩] := by
      simp [Diagnostics.Append, Diagnostics.Contains]
    rw [h0]
    exact Diagnostics.append_single_fresh _ _ hfresh
  refine ⟨hD, ?_, ⟨"error: ", ", reqParams: " ++
    env.MarshalUncheckedString (buildRequest config env.configData), ?_⟩, ?_, ?_, ?_⟩
  · rw [hD, Diagnostics.errorCount_append_one, hzero]
  · simp [String.append_assoc]
  · unfold mysqlProductsDataSource.Read
    simp only [he, hc, herr, Bool.false_eq_true, if_false]
    rfl
  · unfold mysqlProductsDataSource.Read
    simp only [he, hc, herr, Bool.false_eq_true, if_false]
  · unfold mysqlProductsDataSource.Read
    simp only [he, hc, herr, Bool.false_eq_true, if_false]

/-- C2 at a concrete run: the SDK fails with `timeout` while an output file is configured. -/
theorem read_sdk_error_witness :
    (sampleDataSource.Read (sampleEnv (.value "out.json") .nil (some "timeout")) []).request =
        some ⟨some "KR", some "SW.VDBAS.DBAAS.LNX64.CNTOS.0708.MYSQL.8025.B050", none,
          some "SVR.VDBAS.HICPU.C004.M008"⟩ ∧
    (sampleDataSource.Read (sampleEnv (.value "out.json") .nil (some "timeout")) []).Diagnostics =
      Diagnostics.Append [] [] ++
        [⟨.error, "GetMysqlProductList", "error: " ++ "timeout" ++ ", reqParams: " ++ "<request>"⟩] ∧
    (sampleDataSource.Read (sampleEnv (.value "out.json") .nil (some "timeout")) []).written =
      none :=
  ⟨by decide,
    (read_sdk_error sampleDataSource (sampleEnv (.value "out.json") .nil (some "timeout")) []
      ⟨some "KR", some "SW.VDBAS.DBAAS.LNX64.CNTOS.0708.MYSQL.8025.B050", none,
        some "SVR.VDBAS.HICPU.C004.M008"⟩ "timeout" (by decide) rfl).1,
    (read_sdk_error sampleDataSource (sampleEnv (.value "out.json") .nil (some "timeout")) []
      ⟨some "KR", some "SW.VDBAS.DBAAS.LNX64.CNTOS.0708.MYSQL.8025.B050", none,
        some "SVR.VDBAS.HICPU.C004.M008"⟩ "timeout" (by decide) rfl).2.2.2.2.1⟩

/-- C1. On the sample product sent without a CPU count, `refreshFromOutput` panics with a nil
dereference instead of giving a model whose `cpu_count` is null, and so it does on every
product without CPU count; when the CPU count and the three code records are present, each
field is the pointer value (`StringPointerValue`, `Int64PointerValue`) of the vendor field:
null for nil, the known value otherwise. -/
theorem refreshFromOutput_nil_cpuCount :
    (default : mysqlProductModel).refreshFromOutput (some productWithoutCpuCount) =
      .error .nilDereference ∧
    (∀ (m : mysqlProductModel) (pc pn pd : Ptr String) (pt irt dt : Ptr CommonCode)
        (mem : Ptr Int),
      m.refreshFromOutput (some ⟨pc, pn, pt, pd, irt, none, mem, dt⟩) =
        .error .nilDereference) ∧
    (∀ (m : mysqlProductModel) (pc pn pd : Ptr String) (pt irt dt : CommonCode) (cpu : Int)
        (mem : Ptr Int),
      m.refreshFromOutput (some ⟨pc, pn, some pt, pd, some irt, some cpu, mem, some dt⟩) =
        .ok ⟨StringPointerValue pc, StringPointerValue pn, StringPointerValue pt.Code,
          StringPointerValue pd, StringPointerValue irt.Code, Int64Value cpu,
          Int64PointerValue mem, StringPointerValue dt.Code⟩) := by
  refine ⟨rfl, ?_, ?_⟩
  · intro m pc pn pd pt irt dt mem
    cases pt <;> cases irt <;> rfl
  · intro m pc pn pd pt irt dt cpu mem
    rfl

/-- The quoted form of a string is never empty. -/
theorem Quote_ne_empty (unicodeTable : Char → Bool) (s : String) : Quote unicodeTable s ≠ "" := by
  intro h
  have := congrArg String.data h
  simp [Quote] at this

/-- C8. With `output_file` set to the empty string and a successful SDK call, `Read` calls
`common.WriteToFile` with the empty path: the test `data.OutputFile.String() != ""` compares
the quoted form, which is never empty, so every non-null `output_file` leads to a write. -/
theorem read_writes_for_empty_output_file :
    (sampleDataSource.Read (sampleEnv (.value "") (.elems [some sampleProduct]) none) []).written =
      some ("",
        [⟨"SVR.VDBAS.STAND.C002.M008", "vCPU 2EA, Memory 8GB", "STAND", "vCPU 2EA, Memory 8GB",
          "VMYSQL", 2, 8589934592, "NET"⟩]) ∧
    (sampleDataSource.Read (sampleEnv (.value "") (.elems [some sampleProduct]) none) []).panicked =
      none ∧
    (sampleDataSource.Read (sampleEnv .null (.elems [some sampleProduct]) none) []).written =
      none ∧
    TfString.String (fun _ => false) (.value "") = "\"\"" ∧
    (∀ (unicodeTable : Char → Bool) (s : String),
      TfString.String unicodeTable (.value s) ≠ "") := by
  refine ⟨by decide!, by decide!, by decide!, by decide, fun t s => ?_⟩
  exact Quote_ne_empty t s

/-- The records handed to the writer are the decoded elements of `product_list`, one per
element, in order. -/
theorem recordsToConvert_eq_map (unicodeTable : Char → Bool) (productList : TfList) :
    recordsToConvert unicodeTable productList =
      productList.Elements.map
        (fun image => (jsonUnmarshal (image.String unicodeTable) default).1) := by
  unfold recordsToConvert
  generalize productList.Elements = es
  have h : ∀ (acc : List mysqlProductsToJsonConvert),
      es.foldl (fun mysqlImagesToConvert image =>
        mysqlImagesToConvert ++ [(jsonUnmarshal (image.String unicodeTable) default).1]) acc =
      acc ++ es.map (fun image => (jsonUnmarshal (image.String unicodeTable) default).1) := by
    induction es with
    | nil => intro acc; simp
    | cons e es ih => intro acc; simp [ih]
  simpa using h []

/-- C5. For the sample product sent without a description (so that `product_description`
is null and every other field is set), the one record `Read` hands to `common.WriteToFile`
is the zero record: the element's `String()` contains `<null>`, `json.Unmarshal` rejects the
text and its error is dropped, so the record does not carry the product code, name, type,
sizes or disk type that `product_list` holds. With the description present the record
carries all eight values; and in every case there is one record per element of
`product_list`, in order. -/
theorem read_records_lost_on_null_field :
    (sampleDataSource.Read
        (sampleEnv (.value "products.json") (.elems [some productWithoutDescription]) none)
        []).written =
      some ("products.json", [⟨"", "", "", "", "", 0, 0, ""⟩]) ∧
    (sampleDataSource.Read
        (sampleEnv (.value "products.json") (.elems [some productWithoutDescription]) none)
        []).State.map (fun data => data.ProductList) =
      some (.value [.value
        [ ("product_code", .string (.value "SVR.VDBAS.STAND.C002.M008")),
          ("product_name", .string (.value "vCPU 2EA, Memory 8GB")),
          ("product_type", .string (.value "STAND")),
          ("product_description", .string .null),
          ("infra_resource_type", .string (.value "VMYSQL")),
          ("cpu_count", .int64 (.value 2)),
          ("memory_size", .int64 (.value 8589934592)),
          ("disk_type", .string (.value "NET")) ]]) ∧
    TfObject.String (fun _ => false)
        (.value (⟨.value "P", .value "N", .value "T", .null, .value "I", .value 2, .value 8,
          .value "D"⟩ : mysqlProductModel).tfsdkFields) =
      "\x7b\"cpu_count\":2,\"disk_type\":\"D\",\"infra_resource_type\":\"I\"," ++
        "\"memory_size\":8,\"product_code\":\"P\",\"product_description\":<null>," ++
        "\"product_name\":\"N\",\"product_type\":\"T\"\x7d" ∧
    (sampleDataSource.Read
        (sampleEnv (.value "products.json") (.elems [some sampleProduct]) none)
        []).written =
      some ("products.json",
        [⟨"SVR.VDBAS.STAND.C002.M008", "vCPU 2EA, Memory 8GB", "STAND", "vCPU 2EA, Memory 8GB",
          "VMYSQL", 2, 8589934592, "NET"⟩]) ∧
    (∀ (unicodeTable : Char → Bool) (productList : TfList),
      (recordsToConvert unicodeTable productList).length = productList.Elements.length) := by
  refine ⟨by decide!, by decide!, by decide!, by decide!, fun t pl => ?_⟩
  rw [recordsToConvert_eq_map, List.length_map]

/-- Elements of a slice grown by repeated `append`. -/
theorem Slice.toList_foldl_append {α : Type} (ys : List α) (acc : Slice α) :
    (ys.foldl Slice.append acc).toList = acc.toList ++ ys := by
  induction ys generalizing acc with
  | nil => simp
  | cons y ys ih =>
    simp only [List.foldl_cons]
    rw [ih]
    simp [Slice.append, Slice.toList]

/-- The loop of `flattenMysqlProduct` is the element-wise map of `refreshFromOutput`,
appended to the slice the loop starts from. -/
theorem flatten_loop_eq_mapM (xs : List (Ptr Product)) (acc : Slice (Ptr mysqlProductModel)) :
    xs.foldlM flattenStep acc =
      (xs.mapM (default : mysqlProductModel).refreshFromOutput).map
        (fun ms => (ms.map some).foldl Slice.append acc) := by
  induction xs generalizing acc with
  | nil => rfl
  | cons x xs ih =>
    rw [List.foldlM_cons, List.mapM_cons]
    cases hx : (default : mysqlProductModel).refreshFromOutput x with
    | error p => simp [flattenStep, hx, bind, Except.bind, Except.map]
    | ok mdl =>
      have hstep : flattenStep acc x = .ok (acc.append (some mdl)) := by
        simp [flattenStep, hx, bind, Except.bind, pure, Except.pure]
      rw [hstep]
      show xs.foldlM flattenStep (acc.append (some mdl)) = _
      rw [ih]
      cases xs.mapM (default : mysqlProductModel).refreshFromOutput with
      | error p => rfl
      | ok ms => rfl

/-- A successful element-wise map keeps the number of elements. -/
theorem mapM_refresh_length (xs : List (Ptr Product)) (ms : List mysqlProductModel)
    (h : xs.mapM (default : mysqlProductModel).refreshFromOutput = .ok ms) :
    ms.length = xs.length := by
  induction xs generalizing ms with
  | nil =>
    rw [List.mapM_nil] at h
    have h2 : (Except.ok [] : Except Panic (List mysqlProductModel)) = .ok ms := h
    cases h2
    rfl
  | cons x xs ih =>
    rw [List.mapM_cons] at h
    cases hx : (default : mysqlProductModel).refreshFromOutput x with
    | error p =>
      rw [hx] at h
      have h2 : (Except.error p : Except Panic (List mysqlProductModel)) = .ok ms := h
      cases h2
    | ok mdl =>
      cases hxs : xs.mapM (default : mysqlProductModel).refreshFromOutput with
      | error p =>
        rw [hx, hxs] at h
        have h2 : (Except.error p : Except Panic (List mysqlProductModel)) = .ok ms := h
        cases h2
      | ok ys =>
        rw [hx, hxs] at h
        have h2 : (Except.ok (mdl :: ys) : Except Panic (List mysqlProductModel)) = .ok ms := h
        cases h2
        simp [ih ys hxs]

/-- Elements of the slice collected by `append` from the nil slice. -/
theorem Slice.toList_collect {α : Type} (ys : List α) :
    (ys.foldl Slice.append Slice.nil).toList = ys := by
  rw [Slice.toList_foldl_append]
  rfl

/-- C4. On the list of the sample product followed by the same product sent without a CPU
count, `flattenMysqlProduct` panics with a nil dereference and returns no list at all,
although the list has two products: the loop calls `refreshFromOutput`, which dereferences
the nil CPU count. Apart from that panic the function is the element-wise map the claim
describes: for every list it equals the map of `refreshFromOutput` over the list, in order,
collected by `append` from the nil slice, so that whenever it returns, the result has the
length of the input and its elements point to the models of the products, in order; for an
empty list the result is the (empty) nil slice; and the list of two products that both
carry a CPU count gives the two models. -/
theorem flattenMysqlProduct_panics_on_nil_cpuCount :
    flattenMysqlProduct (.elems [some sampleProduct, some productWithoutCpuCount]) =
      .error .nilDereference ∧
    (∀ list : Slice (Ptr Product),
      flattenMysqlProduct list =
        (list.toList.mapM (default : mysqlProductModel).refreshFromOutput).map
          (fun ms => (ms.map some).foldl Slice.append Slice.nil)) ∧
    (∀ list : Slice (Ptr Product),
      (flattenMysqlProduct list).map Slice.len =
        (list.toList.mapM (default : mysqlProductModel).refreshFromOutput).map
          (fun _ => list.len)) ∧
    (∀ list : Slice (Ptr Product),
      (flattenMysqlProduct list).map Slice.toList =
        (list.toList.mapM (default : mysqlProductModel).refreshFromOutput).map
          (fun ms => ms.map some)) ∧
    flattenMysqlProduct .nil = .ok .nil ∧
    flattenMysqlProduct (.elems []) = .ok .nil ∧
    flattenMysqlProduct (.elems [some sampleProduct, some productWithoutDescription]) =
      .ok (.elems
        [ some ⟨.value "SVR.VDBAS.STAND.C002.M008", .value "vCPU 2EA, Memory 8GB",
            .value "STAND", .value "vCPU 2EA, Memory 8GB", .value "VMYSQL", .value 2,
            .value 8589934592, .value "NET"⟩,
          some ⟨.value "SVR.VDBAS.STAND.C002.M008", .value "vCPU 2EA, Memory 8GB",
            .value "STAND", .null, .value "VMYSQL", .value 2, .value 8589934592,
            .value "NET"⟩ ]) := by
  refine ⟨rfl, fun list => flatten_loop_eq_mapM _ _, fun list => ?_, fun list => ?_, rfl, rfl,
    rfl⟩
  · have h := flatten_loop_eq_mapM list.toList Slice.nil
    unfold flattenMysqlProduct
    rw [h]
    cases hm : list.toList.mapM (default : mysqlProductModel).refreshFromOutput with
    | error p => rfl
    | ok ms =>
      show Except.ok ((ms.map some).foldl Slice.append Slice.nil).toList.length =
        Except.ok list.toList.length
      rw [Slice.toList_collect, List.length_map, mapM_refresh_length _ _ hm]
  · have h := flatten_loop_eq_mapM list.toList Slice.nil
    unfold flattenMysqlProduct
    rw [h]
    cases hm : list.toList.mapM (default : mysqlProductModel).refreshFromOutput with
    | error p => rfl
    | ok ms =>
      show Except.ok ((ms.map some).foldl Slice.append Slice.nil).toList =
        Except.ok (ms.map some)
      rw [Slice.toList_collect]

/-- Every model converts to the known object that holds its eight field values. -/
theorem FromStruct_model (m : mysqlProductModel) :
    FromStruct (default : mysqlProductModel).attrTypes m.tfsdkFields =
      .ok (.value m.tfsdkFields) := by
  rfl

/-- Every slice element converts: the nil pointer to the null object, a model to its known
object. -/
theorem FromPointer_ok (p : Ptr mysqlProductModel) :
    ∃ o, FromPointer (default : mysqlProductModel).attrTypes p = .ok o := by
  cases p with
  | none => exact ⟨.null, rfl⟩
  | some m => exact ⟨.value m.tfsdkFields, FromStruct_model m⟩

/-- Converting the elements of a slice one by one succeeds and keeps their number. -/
theorem mapM_FromPointer_ok (xs : List (Ptr mysqlProductModel)) :
    ∃ es, xs.mapM (FromPointer (default : mysqlProductModel).attrTypes) = .ok es ∧
      es.length = xs.length := by
  induction xs with
  | nil => exact ⟨[], rfl, rfl⟩
  | cons x xs ih =>
    obtain ⟨o, ho⟩ := FromPointer_ok x
    obtain ⟨es, hes, hlen⟩ := ih
    refine ⟨o :: es, ?_, by simp [hlen]⟩
    rw [List.mapM_cons, ho, hes]
    rfl

/-- C10 as stated fails on the nil slice, which `flattenMysqlProduct` returns for an empty
product list: the conversion gives the null list, so `product_list` is not a known list,
also at the end of a `Read` whose SDK call returned no product and whose filter hands the
slice on as it is. -/
theorem refreshFromOutput_nil_slice_not_known :
    ((sampleData .null).refreshFromOutput sampleNow Slice.nil).ProductList = .null ∧
    ((sampleData .null).refreshFromOutput sampleNow Slice.nil).ProductList.isKnown = false ∧
    flattenMysqlProduct (.elems []) = .ok .nil ∧
    (sampleDataSource.Read (sampleEnv .null (.elems []) none) []).State.map
      (fun data => data.ProductList) = some .null := by
  refine ⟨rfl, rfl, rfl, by decide⟩

/-- C10, amended. The attribute-type map of `attrTypes` has exactly the eight names of the
`tfsdk` tags of `mysqlProductModel` and of the nested attributes of `product_list`, each
with the same type; hence the list conversion in `mysqlProductList.refreshFromOutput` raises
no diagnostic for any slice of models, and `product_list` has as many elements as the slice:
it is a known list when the slice is not nil, and the null list when the slice is nil. -/
theorem refreshFromOutput_product_list {σ : Type} (m : mysqlProductList σ) (now : Time)
    (list : Slice (Ptr mysqlProductModel)) :
    ((default : mysqlProductModel).attrTypes).length = 8 ∧
    sameAttributes (default : mysqlProductModel).attrTypes mysqlProductModel.tfsdkTags = true ∧
    sameAttributes (default : mysqlProductModel).attrTypes productListNestedAttributes = true ∧
    (ListValueFrom (default : mysqlProductModel).attrTypes list).2 = [] ∧
    (m.refreshFromOutput now list).ProductList.IsUnknown = false ∧
    (m.refreshFromOutput now list).ProductList.Elements.length = list.len ∧
    (m.refreshFromOutput now Slice.nil).ProductList = .null ∧
    (∀ xs : List (Ptr mysqlProductModel), ∃ es,
      (m.refreshFromOutput now (.elems xs)).ProductList = .value es ∧
      es.length = xs.length) := by
  have hknown : ∀ xs : List (Ptr mysqlProductModel), ∃ es,
      ListValueFrom (default : mysqlProductModel).attrTypes (.elems xs) = (.value es, []) ∧
      es.length = xs.length := by
    intro xs
    obtain ⟨es, hes, hlen⟩ := mapM_FromPointer_ok xs
    exact ⟨es, by simp only [ListValueFrom, hes], hlen⟩
  refine ⟨rfl, by decide, by decide, ?_, ?_, ?_, rfl, ?_⟩
  · cases list with
    | nil => rfl
    | elems xs =>
      obtain ⟨es, hes, _⟩ := hknown xs
      rw [hes]
  · cases list with
    | nil => rfl
    | elems xs =>
      obtain ⟨es, hes, _⟩ := hknown xs
      simp [mysqlProductList.refreshFromOutput, hes, TfList.IsUnknown]
  · cases list with
    | nil => rfl
    | elems xs =>
      obtain ⟨es, hes, hlen⟩ := hknown xs
      simp [mysqlProductList.refreshFromOutput, hes, TfList.Elements, hlen, Slice.len,
        Slice.toList]
  · intro xs
    obtain ⟨es, hes, hlen⟩ := hknown xs
    exact ⟨es, by simp [mysqlProductList.refreshFromOutput, hes], hlen⟩


/-- Code point of a decimal digit character. -/
theorem digitChar_toNat (d : Nat) (h : d < 10) : (digitChar d).toNat = 48 + d := by
  unfold digitChar
  interval_cases d <;> rfl

/-- A decimal digit character passes the digit test. -/
theorem digitChar_isDigit (d : Nat) (h : d < 10) : isDigit (digitChar d) = true := by
  simp [isDigit, digitChar_toNat d h]
  omega

/-- With enough fuel the digit loop puts the decimal form in front of the accumulator. -/
theorem natDigitsAux_eq (n : Nat) : ∀ (fuel : Nat) (acc : List Char), n < fuel →
    natDigitsAux fuel n acc = natDigits n ++ acc := by
  induction n using Nat.strong_induction_on with
  | _ n ih =>
    intro fuel acc hf
    cases fuel with
    | zero => omega
    | succ fuel =>
      by_cases h10 : n < 10
      · simp [natDigitsAux, natDigits, h10]
      · have hlt : n / 10 < n := by omega
        simp only [natDigitsAux, natDigits, h10, if_false]
        rw [ih (n / 10) hlt fuel _ (by omega), ih (n / 10) hlt n _ hlt]
        simp

/-- Decimal form of a number: one digit below ten, otherwise the form of the tenth followed by the last digit. -/
theorem natDigits_eq (n : Nat) :
    natDigits n = if n < 10 then [digitChar n] else natDigits (n / 10) ++ [digitChar (n % 10)] := by
  by_cases h10 : n < 10
  · simp [natDigits, natDigitsAux, h10]
  · have hlt : n / 10 < n := by omega
    simp only [h10, if_false]
    conv_lhs => rw [natDigits, natDigitsAux]
    simp only [h10, if_false]
    exact natDigitsAux_eq (n / 10) n _ hlt

/-- The decimal form consists of digits. -/
theorem natDigits_isDigit (n : Nat) : ∀ c ∈ natDigits n, isDigit c = true := by
  induction n using Nat.strong_induction_on with
  | _ n ih =>
    intro c hc
    rw [natDigits_eq] at hc
    by_cases h10 : n < 10
    · simp only [h10, if_true, List.mem_singleton] at hc
      subst hc
      exact digitChar_isDigit n h10
    · simp only [h10, if_false, List.mem_append, List.mem_singleton] at hc
      rcases hc with hc | hc
      · exact ih (n / 10) (by omega) c hc
      · subst hc
        exact digitChar_isDigit _ (by omega)

/-- The decimal form is never empty. -/
theorem natDigits_ne_nil (n : Nat) : natDigits n ≠ [] := by
  rw [natDigits_eq]
  split <;> simp

/-- Value of a run of digits extended by one digit. -/
theorem digitsValue_append_single (ds : List Char) (c : Char) :
    digitsValue (ds ++ [c]) = 10 * digitsValue ds + (c.toNat - 48) := by
  simp [digitsValue, List.foldl_append]

/-- The decimal form of a number denotes that number. -/
theorem digitsValue_natDigits (n : Nat) : digitsValue (natDigits n) = n := by
  induction n using Nat.strong_induction_on with
  | _ n ih =>
    rw [natDigits_eq]
    by_cases h10 : n < 10
    · simp [h10, digitsValue, digitChar_toNat n h10]
    · simp only [h10, if_false]
      rw [digitsValue_append_single, ih (n / 10) (by omega), digitChar_toNat _ (by omega)]
      omega

/-- Leading zeros do not change the value of a run of digits. -/
theorem digitsValue_zeros_append (k : Nat) (ds : List Char) :
    digitsValue (List.replicate k (Char.ofNat 48) ++ ds) = digitsValue ds := by
  induction k with
  | zero => simp
  | succ k ih =>
    simp only [digitsValue, List.replicate_succ, List.cons_append, List.foldl_cons] at ih ⊢
    exact ih

/-- A number below a power of ten has at most that many digits. -/
theorem natDigits_length_le (k : Nat) : ∀ n : Nat, n < 10 ^ (k + 1) →
    (natDigits n).length ≤ k + 1 := by
  induction k with
  | zero =>
    intro n hn
    rw [natDigits_eq]
    simp at hn
    simp [hn]
  | succ k ih =>
    intro n hn
    rw [natDigits_eq]
    by_cases h10 : n < 10
    · simp [h10]
    · simp only [h10, if_false, List.length_append, List.length_singleton]
      have : n / 10 < 10 ^ (k + 1) := by
        rw [pow_succ] at hn
        omega
      have := ih (n / 10) this
      omega


/-- Zero-padded digits of a natural number, the unsigned part of `appendInt`. -/
theorem appendInt_of_nonneg (x : Int) (h : 0 ≤ x) (width : Nat) :
    appendInt x width =
      List.replicate (width - (natDigits x.natAbs).length) (Char.ofNat 48) ++
        natDigits x.natAbs := by
  have : ¬ x < 0 := by omega
  simp [appendInt, this]

/-- A negative number is printed as a minus sign and the zero-padded digits of its absolute value. -/
theorem appendInt_of_neg (x : Int) (h : x < 0) (width : Nat) :
    appendInt x width =
      Char.ofNat 45 :: (List.replicate (width - (natDigits x.natAbs).length) (Char.ofNat 48) ++
        natDigits x.natAbs) := by
  simp [appendInt, h]

/-- Zero-padded digits are digits. -/
theorem padded_isDigit (n k : Nat) :
    ∀ c ∈ List.replicate k (Char.ofNat 48) ++ natDigits n, isDigit c = true := by
  intro c hc
  rcases List.mem_append.mp hc with h | h
  · rw [(List.mem_replicate.mp h).2]
    rfl
  · exact natDigits_isDigit n c h

/-- Zero-padded digits are never empty. -/
theorem padded_ne_nil (n k : Nat) : List.replicate k (Char.ofNat 48) ++ natDigits n ≠ [] := by
  simp [natDigits_ne_nil]

/-- Zero-padded digits denote the number. -/
theorem padded_value (n k : Nat) :
    digitsValue (List.replicate k (Char.ofNat 48) ++ natDigits n) = n := by
  rw [digitsValue_zeros_append, digitsValue_natDigits]

/-- Two runs of digits, each followed by a character that is no digit, are equal only when the runs, the separators and the remainders are. -/
theorem digits_split (A : List Char) : ∀ (B : List Char) (s t : Char) (R S : List Char),
    (∀ c ∈ A, isDigit c = true) → (∀ c ∈ B, isDigit c = true) →
    isDigit s = false → isDigit t = false →
    A ++ s :: R = B ++ t :: S → A = B ∧ s = t ∧ R = S := by
  induction A with
  | nil =>
    intro B s t R S _ hB hs _ h
    cases B with
    | nil =>
      simp only [List.nil_append, List.cons.injEq] at h
      exact ⟨rfl, h.1, h.2⟩
    | cons b B =>
      simp only [List.nil_append, List.cons_append, List.cons.injEq] at h
      have := hB b (List.mem_cons_self b B)
      rw [← h.1, hs] at this
      cases this
  | cons a A ih =>
    intro B s t R S hA hB hs ht h
    cases B with
    | nil =>
      simp only [List.nil_append, List.cons_append, List.cons.injEq] at h
      have := hA a (List.mem_cons_self a A)
      rw [h.1, ht] at this
      cases this
    | cons b B =>
      simp only [List.cons_append, List.cons.injEq] at h
      obtain ⟨h1, h2, h3⟩ := ih B s t R S (fun c hc => hA c (List.mem_cons_of_mem a hc))
        (fun c hc => hB c (List.mem_cons_of_mem b hc)) hs ht h.2
      exact ⟨by rw [h.1, h1], h2, h3⟩

/-- Two `appendInt` fields, each followed by a separator that is no digit, are equal only
for equal numbers, separators and remainders. -/
theorem appendInt_split (x y : Int) (width : Nat) (s t : Char) (R S : List Char)
    (hs : isDigit s = false) (ht : isDigit t = false)
    (h : appendInt x width ++ s :: R = appendInt y width ++ t :: S) :
    x = y ∧ s = t ∧ R = S := by
  have hminus : isDigit (Char.ofNat 45) = false := rfl
  by_cases hx : x < 0 <;> by_cases hy : y < 0
  · rw [appendInt_of_neg x hx, appendInt_of_neg y hy] at h
    simp only [List.cons_append, List.cons.injEq, true_and] at h
    obtain ⟨h1, h2, h3⟩ := digits_split _ _ s t R S (padded_isDigit _ _) (padded_isDigit _ _)
      hs ht h
    have hv := congrArg digitsValue h1
    rw [padded_value, padded_value] at hv
    exact ⟨by omega, h2, h3⟩
  · rw [appendInt_of_neg x hx, appendInt_of_nonneg y (by omega)] at h
    exfalso
    cases hp : List.replicate (width - (natDigits y.natAbs).length) (Char.ofNat 48) ++
        natDigits y.natAbs with
    | nil => exact padded_ne_nil _ _ hp
    | cons c cs =>
      rw [hp] at h
      simp only [List.cons_append, List.cons.injEq] at h
      have := padded_isDigit y.natAbs (width - (natDigits y.natAbs).length) c
        (by rw [hp]; exact List.mem_cons_self c cs)
      rw [← h.1, hminus] at this
      cases this
  · rw [appendInt_of_nonneg x (by omega), appendInt_of_neg y hy] at h
    exfalso
    cases hp : List.replicate (width - (natDigits x.natAbs).length) (Char.ofNat 48) ++
        natDigits x.natAbs with
    | nil => exact padded_ne_nil _ _ hp
    | cons c cs =>
      rw [hp] at h
      simp only [List.cons_append, List.cons.injEq] at h
      have := padded_isDigit x.natAbs (width - (natDigits x.natAbs).length) c
        (by rw [hp]; exact List.mem_cons_self c cs)
      rw [h.1, hminus] at this
      cases this
  · rw [appendInt_of_nonneg x (by omega), appendInt_of_nonneg y (by omega)] at h
    obtain ⟨h1, h2, h3⟩ := digits_split _ _ s t R S (padded_isDigit _ _) (padded_isDigit _ _)
      hs ht h
    have hv := congrArg digitsValue h1
    rw [padded_value, padded_value] at hv
    exact ⟨by omega, h2, h3⟩


/-- A text is what remains after its trailing zeros are cut, followed by those zeros. -/
theorem trimZeros_decomp (l : List Char) :
    l = (l.reverse.dropWhile (fun c => decide (c.toNat = 48))).reverse ++
      List.replicate
        (l.length - (l.reverse.dropWhile (fun c => decide (c.toNat = 48))).reverse.length)
        (Char.ofNat 48) := by
  have hsplit := List.takeWhile_append_dropWhile (fun c => decide (c.toNat = 48)) l.reverse
  have htake : l.reverse.takeWhile (fun c => decide (c.toNat = 48)) =
      List.replicate (l.reverse.takeWhile (fun c => decide (c.toNat = 48))).length
        (Char.ofNat 48) := by
    rw [List.eq_replicate_iff]
    refine ⟨rfl, fun b hb => ?_⟩
    have := List.mem_takeWhile_imp hb
    simp only [decide_eq_true_eq] at this
    rw [← this, Char.ofNat_toNat]
  have hlen : (l.reverse.takeWhile (fun c => decide (c.toNat = 48))).length =
      l.length - (l.reverse.dropWhile (fun c => decide (c.toNat = 48))).reverse.length := by
    have := congrArg List.length hsplit
    simp only [List.length_append, List.length_reverse] at this ⊢
    omega
  have hrev := congrArg List.reverse hsplit
  simp only [List.reverse_append, List.reverse_reverse] at hrev
  rw [htake, List.reverse_replicate, hlen] at hrev
  exact hrev.symm

/-- Texts of equal length that agree after their trailing zeros are cut are equal. -/
theorem trimZeros_inj (l l' : List Char) (hlen : l.length = l'.length)
    (h : (l.reverse.dropWhile (fun c => decide (c.toNat = 48))).reverse =
      (l'.reverse.dropWhile (fun c => decide (c.toNat = 48))).reverse) : l = l' := by
  rw [trimZeros_decomp l, trimZeros_decomp l', h, hlen]

/-- Cutting trailing zeros from digits leaves digits. -/
theorem trimZeros_isDigit (l : List Char) (hl : ∀ c ∈ l, isDigit c = true) :
    ∀ c ∈ (l.reverse.dropWhile (fun c => decide (c.toNat = 48))).reverse,
      isDigit c = true := by
  intro c hc
  rw [List.mem_reverse] at hc
  have := (List.dropWhile_sublist _).subset hc
  exact hl c (List.mem_reverse.mp this)

/-- Nanoseconds are printed with exactly nine digits. -/
theorem appendInt_nat_length (n : Nat) (hn : n < 1000000000) :
    (appendInt (n : Int) 9).length = 9 := by
  rw [appendInt_of_nonneg _ (by omega)]
  have := natDigits_length_le 8 n (by simpa using hn)
  simp only [Int.natAbs_ofNat, List.length_append, List.length_replicate]
  omega

/-- A natural number is printed with digits only. -/
theorem appendInt_nat_isDigit (n : Nat) (width : Nat) :
    ∀ c ∈ appendInt (n : Int) width, isDigit c = true := by
  rw [appendInt_of_nonneg _ (by omega)]
  exact padded_isDigit _ _

/-- Natural numbers printed alike at one width are equal. -/
theorem appendInt_nat_inj (n n' : Nat) (width : Nat)
    (h : appendInt (n : Int) width = appendInt (n' : Int) width) : n = n' := by
  rw [appendInt_of_nonneg _ (by omega), appendInt_of_nonneg _ (by omega)] at h
  have hv := congrArg digitsValue h
  rw [padded_value, padded_value] at hv
  simpa using hv

/-- The fraction of a second, followed by the blank before the zone, starts with a character
that is no digit. -/
theorem appendNano_head (n : Nat) (R : List Char) :
    ∃ sep X, isDigit sep = false ∧ appendNano n ++ ' ' :: R = sep :: X := by
  by_cases h0 : n = 0
  · exact ⟨' ', R, rfl, by simp [appendNano, h0]⟩
  · refine ⟨Char.ofNat 46,
      ((appendInt (n : Int) 9).reverse.dropWhile (fun c => decide (c.toNat = 48))).reverse ++
        ' ' :: R, rfl, ?_⟩
    simp only [appendNano, h0, if_false, List.cons_append]

/-- The fraction of a second determines the nanoseconds. -/
theorem appendNano_tail_inj (n n' : Nat) (hn : n < 1000000000) (hn' : n' < 1000000000)
    (R R' : List Char) (h : appendNano n ++ ' ' :: R = appendNano n' ++ ' ' :: R') :
    n = n' ∧ R = R' := by
  by_cases h0 : n = 0 <;> by_cases h0' : n' = 0
  · subst h0 h0'
    simpa [appendNano] using h
  · exfalso
    simp only [appendNano, h0, h0', if_true, if_false, List.nil_append, List.cons_append,
      List.cons.injEq] at h
    exact absurd h.1 (by decide)
  · exfalso
    simp only [appendNano, h0, h0', if_true, if_false, List.nil_append, List.cons_append,
      List.cons.injEq] at h
    exact absurd h.1 (by decide)
  · simp only [appendNano, h0, h0', if_false, List.cons_append, List.cons.injEq, true_and] at h
    obtain ⟨h1, _, h3⟩ := digits_split _ _ ' ' ' ' R R'
      (trimZeros_isDigit _ (appendInt_nat_isDigit n 9))
      (trimZeros_isDigit _ (appendInt_nat_isDigit n' 9)) rfl rfl h
    have := trimZeros_inj _ _
      (by rw [appendInt_nat_length n hn, appendInt_nat_length n' hn']) h1
    exact ⟨appendInt_nat_inj n n' 9 this, h3⟩


/-- The default layout determines the fields of the time it prints. -/
theorem layoutDefault_inj (y mo d h mi s y' mo' d' h' mi' s' : Int) (n n' : Nat)
    (hn : n < 1000000000) (hn' : n' < 1000000000) (name : String) (off : Int)
    (heq : layoutDefault y mo d h mi s n name off = layoutDefault y' mo' d' h' mi' s' n' name off) :
    y = y' ∧ mo = mo' ∧ d = d' ∧ h = h' ∧ mi = mi' ∧ s = s' ∧ n = n' := by
  unfold layoutDefault at heq
  obtain ⟨e1, -, heq⟩ :=
    appendInt_split _ _ _ (Char.ofNat 45) (Char.ofNat 45) _ _ rfl rfl heq
  obtain ⟨e2, -, heq⟩ :=
    appendInt_split _ _ _ (Char.ofNat 45) (Char.ofNat 45) _ _ rfl rfl heq
  obtain ⟨e3, -, heq⟩ := appendInt_split _ _ _ ' ' ' ' _ _ rfl rfl heq
  obtain ⟨e4, -, heq⟩ := appendInt_split _ _ _ ':' ':' _ _ rfl rfl heq
  obtain ⟨e5, -, heq⟩ := appendInt_split _ _ _ ':' ':' _ _ rfl rfl heq
  obtain ⟨sep, X, hsep, hX⟩ := appendNano_head n (appendNumTZ off ++ ' ' :: appendTZ name off)
  obtain ⟨sep', X', hsep', hX'⟩ :=
    appendNano_head n' (appendNumTZ off ++ ' ' :: appendTZ name off)
  have heq2 := heq
  rw [hX, hX'] at heq2
  obtain ⟨e6, e7, e8⟩ := appendInt_split _ _ _ _ _ _ _ hsep hsep' heq2
  have htail : appendNano n ++ ' ' :: (appendNumTZ off ++ ' ' :: appendTZ name off) =
      appendNano n' ++ ' ' :: (appendNumTZ off ++ ' ' :: appendTZ name off) := by
    rw [hX, hX', e7, e8]
  exact ⟨e1, e2, e3, e4, e5, e6, (appendNano_tail_inj n n' hn hn' _ _ htail).1⟩

/-- Year of the era is below 400 and the day of the year at most 365. -/
theorem yearOfEra_bounds (doe : Int) (h0 : 0 ≤ doe) (h1 : doe < 146097) :
    0 ≤ (yearOfEra doe).1 ∧ (yearOfEra doe).1 ≤ 399 ∧
      0 ≤ (yearOfEra doe).2 ∧ (yearOfEra doe).2 ≤ 365 := by
  simp only [yearOfEra]
  omega

/-- Within an era, the year and the day of the year determine the day. -/
theorem yearOfEra_inj (a b : Int) (a0 : 0 ≤ a) (a1 : a < 146097) (b0 : 0 ≤ b) (b1 : b < 146097)
    (h : yearOfEra a = yearOfEra b) : a = b := by
  simp only [yearOfEra, Prod.mk.injEq] at h
  obtain ⟨h1, h2⟩ := h
  have hc : min (a / 36524) 3 = min (b / 36524) 3 := by omega
  rw [hc] at h1 h2
  have hq : (a - 36524 * min (b / 36524) 3) / 1461 =
      (b - 36524 * min (b / 36524) 3) / 1461 := by omega
  rw [hq] at h1 h2
  omega

/-- Month is between 1 and 12 and the day of the month between 1 and 31. -/
theorem monthDay_bounds (doy : Int) (h0 : 0 ≤ doy) (h1 : doy ≤ 365) :
    1 ≤ (monthDay doy).1 ∧ (monthDay doy).1 ≤ 12 ∧
      1 ≤ (monthDay doy).2 ∧ (monthDay doy).2 ≤ 31 := by
  simp only [monthDay]
  split_ifs <;> omega

/-- Within a year, month and day of the month determine the day of the year. -/
theorem monthDay_inj (a b : Int) (a0 : 0 ≤ a) (a1 : a ≤ 365) (b0 : 0 ≤ b) (b1 : b ≤ 365)
    (h : monthDay a = monthDay b) : a = b := by
  simp only [monthDay, Prod.mk.injEq] at h
  obtain ⟨h1, h2⟩ := h
  have hm : (5 * a + 2) / 153 = (5 * b + 2) / 153 := by
    split_ifs at h1 <;> omega
  rw [hm] at h2
  omega

/-- Different days have different calendar dates. -/
theorem civilFromDays_inj (a b : Int) (h : civilFromDays a = civilFromDays b) : a = b := by
  have ha0 : 0 ≤ (a + 719468) % 146097 := Int.emod_nonneg _ (by decide)
  have ha1 : (a + 719468) % 146097 < 146097 := Int.emod_lt_of_pos _ (by decide)
  have hb0 : 0 ≤ (b + 719468) % 146097 := Int.emod_nonneg _ (by decide)
  have hb1 : (b + 719468) % 146097 < 146097 := Int.emod_lt_of_pos _ (by decide)
  obtain ⟨ya0, ya1, da0, da1⟩ := yearOfEra_bounds _ ha0 ha1
  obtain ⟨yb0, yb1, db0, db1⟩ := yearOfEra_bounds _ hb0 hb1
  simp only [civilFromDays, Prod.mk.injEq] at h
  obtain ⟨h1, h2, h3⟩ := h
  have hmd : monthDay (yearOfEra ((a + 719468) % 146097)).2 =
      monthDay (yearOfEra ((b + 719468) % 146097)).2 := Prod.ext h2 h3
  have hdoy := monthDay_inj _ _ da0 da1 db0 db1 hmd
  rw [h2] at h1
  have hy : (yearOfEra ((a + 719468) % 146097)).1 = (yearOfEra ((b + 719468) % 146097)).1 ∧
      (a + 719468) / 146097 = (b + 719468) / 146097 := by
    constructor <;> omega
  have hdoe := yearOfEra_inj _ _ ha0 ha1 hb0 hb1 (Prod.ext hy.1 hdoy)
  omega

/-- The text of a UTC time determines the instant. -/
theorem utc_String_inj (t u : Time) (h : t.UTC.String = u.UTC.String) :
    t.sec = u.sec ∧ t.nsec = u.nsec := by
  have hl := congrArg String.data h
  simp only [Time.String, Time.UTC, List.append_nil, Time.formatDefault, Int.add_zero] at hl
  obtain ⟨e1, e2, e3, e4, e5, e6, e7⟩ :=
    layoutDefault_inj _ _ _ _ _ _ _ _ _ _ _ _ _ _ t.nsec.isLt u.nsec.isLt _ _ hl
  have hdays : t.sec / 86400 = u.sec / 86400 :=
    civilFromDays_inj _ _ (Prod.ext e1 (Prod.ext e2 e3))
  exact ⟨by omega, Fin.ext e7⟩


/-- The text of a UTC time is never empty. -/
theorem utc_String_ne_empty (t : Time) : t.UTC.String ≠ "" := by
  intro h
  have hl := congrArg String.data h
  simp [Time.String, Time.UTC, Time.formatDefault, layoutDefault] at hl

/-- The text of a UTC time depends on the instant only, not on the zone or the monotonic
reading of the value it was taken from. -/
theorem utc_String_congr (t u : Time) (hs : t.sec = u.sec) (hn : t.nsec = u.nsec) :
    t.UTC.String = u.UTC.String := by
  simp [Time.String, Time.UTC, Time.formatDefault, hs, hn]

/-- C3. `mysqlProductList.refreshFromOutput` sets `id` to the known string
`time.Now().UTC().String()`: the id does not depend on the list (nor on the zone or the
monotonic reading of the clock value), it is never null nor empty, and two refreshes with
the same list at two different instants give two different ids, while the same instant
gives the same id. -/
theorem refreshFromOutput_id {σ : Type} (m : mysqlProductList σ) (now later : Time)
    (list other : Slice (Ptr mysqlProductModel)) :
    (m.refreshFromOutput now list).ID = StringValue now.UTC.String ∧
    (m.refreshFromOutput now list).ID = (m.refreshFromOutput now other).ID ∧
    (m.refreshFromOutput now list).ID ≠ .null ∧
    (m.refreshFromOutput now list).ID ≠ StringValue "" ∧
    ((now.sec, now.nsec) ≠ (later.sec, later.nsec) →
      (m.refreshFromOutput now list).ID ≠ (m.refreshFromOutput later list).ID) ∧
    ((now.sec, now.nsec) = (later.sec, later.nsec) →
      (m.refreshFromOutput now list).ID = (m.refreshFromOutput later list).ID) := by
  refine ⟨rfl, rfl, ?_, ?_, ?_, ?_⟩
  · simp [mysqlProductList.refreshFromOutput, StringValue]
  · intro h
    simp only [mysqlProductList.refreshFromOutput, StringValue, TfString.value.injEq] at h
    exact utc_String_ne_empty now h
  · intro hne h
    simp only [mysqlProductList.refreshFromOutput, StringValue, TfString.value.injEq] at h
    obtain ⟨h1, h2⟩ := utc_String_inj now later h
    exact hne (Prod.ext h1 h2)
  · intro heq
    simp only [mysqlProductList.refreshFromOutput, StringValue, TfString.value.injEq]
    exact utc_String_congr now later (congrArg Prod.fst heq) (congrArg Prod.snd heq)

/-- C3 at two concrete clock readings one nanosecond apart, with the same one-element
list. -/
theorem refreshFromOutput_id_witness :
    (sampleNow.sec, sampleNow.nsec) ≠
      (({ sampleNow with nsec := 123456001 } : Time).sec,
        ({ sampleNow with nsec := 123456001 } : Time).nsec) ∧
    ((sampleData .null).refreshFromOutput sampleNow (.elems [none])).ID ≠
      ((sampleData .null).refreshFromOutput { sampleNow with nsec := 123456001 }
        (.elems [none])).ID :=
  ⟨by decide,
    (refreshFromOutput_id (sampleData .null) sampleNow { sampleNow with nsec := 123456001 }
      (.elems [none]) (.elems [none])).2.2.2.2.1 (by decide)⟩

end Ncloud
